import Mathlib

/-!
Shallow embedding of `shadowsocks/core.py`: the per-connection protocol state
machine (`LocalHandler`) and its upstream halves (`RemoteTCP`, `RemoteUDP`),
with the reactor events that drive one Session.  Machine effects that the
claims observe (transport writes, metric updates, cipher calls, stage
assignments) are recorded as an output trace.  Ciphers are external: a
decrypt result arrives with the event (`DecOutcome`), and bytes handed to
`cipher.encrypt` are recorded pre-encryption.
-/

/-- Bytes are modelled as lists of naturals (one per octet). -/
abbrev Bytes := List Nat

/-- The five stages of `LocalHandler` (`STAGE_INIT = 0`, `STAGE_CONNECT = 1`,
`STAGE_STREAM = 2`, `STAGE_DESTROY = -1`, `STAGE_ERROR = 255`). -/
inductive Stage
  | sInit
  | sConnect
  | sStream
  | sDestroy
  | sError
deriving DecidableEq, Repr

/-- `protocol_flag.TRANSPORT_TCP` / `TRANSPORT_UDP`. -/
inductive Transport
  | tcp
  | udp
deriving DecidableEq, Repr

/-- A resolved IP address, as `socket.inet_pton` sees it: the code branches on
`"." in bind_addr` (IPv4 dotted quad) versus `":" in bind_addr` (IPv6). -/
inductive Addr
  | v4 (a b c d : Nat)
  | v6 (bs : Bytes)
deriving DecidableEq, Repr

/-- Result of `self.cipher.decrypt(data)`: the call may raise (`fail`) or
return plaintext bytes, possibly empty. -/
inductive DecOutcome
  | fail
  | ok (d : Bytes)
deriving DecidableEq, Repr

/-- State of one `RemoteTCP` instance. -/
structure RemoteT where
  ready : Bool
  is_closing : Bool
  transport_closing : Bool
deriving DecidableEq, Repr

/-- State of one `RemoteUDP` instance.  `local_ref` models the back-reference
`self.local`, which `close` deletes (`del self.local`). -/
structure RemoteU where
  peer : Addr × Nat
  is_closing : Bool
  transport_closing : Bool
  local_ref : Bool
deriving DecidableEq, Repr

/-- State of one Session: the `LocalHandler` fields plus its remote halves.
`remote` is `_remote` (only ever installed for TCP); `udp_remotes` tracks the
`RemoteUDP` endpoints created from this handler (the handler itself holds no
reference to them).  `connect_pending` records that the INIT coroutine is
awaiting `loop.create_connection`, whose completion arrives as a later
event. -/
structure Sys where
  stage : Stage
  is_closing : Bool
  connect_buffer : Bytes
  protocol : Transport
  has_cipher : Bool
  local_transport_closing : Bool
  remote : Option RemoteT
  udp_remotes : List RemoteU
  connect_pending : Bool
deriving DecidableEq, Repr

/-- Header parse result: `parse_header(data) -> (atyp, host, port, consumed)`.
`dst_ip` is the resolved destination address (host resolution is delegated to
the connect primitive). -/
structure Hdr where
  atyp : Nat
  dst_ip : Addr
  dst_port : Nat
  header_length : Nat
deriving DecidableEq, Repr

/-- Modelled from the spec: `parse_header` lives in `shadowsocks/utils`, which
is not part of the source under review; the spec abstracts it as a pure
function returning `(atyp, host, port, consumed)`, all-null on failure.  The
guard `if not all([addr_type, dst_addr, dst_port, header_length])` in
`core.py` maps any falsy field to the `none` case.  `endpoint_ok` is likewise
modelled from the spec: it is the environment oracle deciding whether the
datagram-endpoint primitive of the host reactor succeeds in establishing the
connected socket toward the destination (spec 4.3 step 5: a bound/connected
datagram endpoint toward `(host, port)` is established; on failure,
stage → ERROR and close); it may depend on the whole current state, so any
pattern of creation failures is covered. -/
structure Config where
  parse_header : Bytes → Option Hdr
  endpoint_ok : Sys → Hdr → Bool

/-- Observable effects of one event, in program order. -/
inductive Output
  | upstreamWrite (d : Bytes)      -- RemoteTCP `self._transport.write(data)`
  | upstreamSend (d : Bytes)       -- RemoteUDP `self._transport.sendto(data)`
  | clientSendPlain (d : Bytes)    -- `LocalHandler.write` (bytes recorded pre-encryption)
  | gauge (k : Int)                -- ACTIVE_CONNECTION_COUNT.inc(k)
  | connMade                       -- CONNECTION_MADE_COUNT.inc()
  | incrUserTcp (k : Int)          -- cipher.incr_user_tcp_num(k)
  | recordUserIp                   -- cipher.record_user_ip(peername)
  | localTransportClose            -- local `self._transport.close()`
  | remoteTransportClose           -- RemoteTCP `self._transport.close()`
  | udpTransportClose (i : Nat)    -- RemoteUDP `self._transport.close()`
  | stageSet (st : Stage)          -- an assignment `self._stage = st`
  | connectInitiated               -- `loop.create_connection(...)` entered
deriving DecidableEq, Repr

/-- Reactor events delivered to one Session. -/
inductive Event
  | data (o : DecOutcome)                        -- handle_data_received (post-decrypt)
  | eof                                          -- handle_eof_received
  | connLost                                     -- handle_connection_lost
  | remoteConnected                              -- loop.create_connection completed
  | connectFailed                                -- loop.create_connection raised
  | remoteData (d : Bytes)                       -- RemoteTCP.data_received
  | remoteEof                                    -- RemoteTCP.eof_received
  | remoteConnLost                               -- RemoteTCP.connection_lost
  | udpReply (i : Nat) (src : Addr × Nat) (d : Bytes)  -- RemoteUDP.datagram_received
  | udpErr (i : Nat)                             -- RemoteUDP.error_received
  | udpConnLost (i : Nat)                        -- RemoteUDP.connection_lost
deriving DecidableEq, Repr

/-- `RemoteTCP.close` as reached from inside `LocalHandler.close` (the local
latch is already set, so the nested `self.local.close()` only re-assigns
`_stage = STAGE_DESTROY` and returns). -/
def remoteTCloseFromLocal (s : Sys) : Sys × List Output :=
  match s.remote with
  | none => (s, [])
  | some r =>
    if r.is_closing then (s, [])
    else
      ({ s with stage := Stage.sDestroy,
                remote := some { r with is_closing := true, transport_closing := true } },
       [Output.gauge (-1), Output.remoteTransportClose, Output.stageSet Stage.sDestroy])

/-- `LocalHandler.close`: sets `_stage = STAGE_DESTROY`, returns if the latch
is set, else latches, decrements the gauge, closes the local transport and
decrements the per-user TCP count (TCP only), then closes `_remote` if
present. -/
def localClose (s : Sys) : Sys × List Output :=
  let s1 := { s with stage := Stage.sDestroy }
  if s1.is_closing then (s1, [Output.stageSet Stage.sDestroy])
  else if s1.protocol = Transport.tcp then
    let s2 := { s1 with is_closing := true, local_transport_closing := true }
    let rc := remoteTCloseFromLocal s2
    (rc.1,
     [Output.stageSet Stage.sDestroy, Output.gauge (-1), Output.localTransportClose] ++
       (if s1.has_cipher then [Output.incrUserTcp (-1)] else []) ++ rc.2)
  else
    let s2 := { s1 with is_closing := true }
    let rc := remoteTCloseFromLocal s2
    (rc.1, [Output.stageSet Stage.sDestroy, Output.gauge (-1)] ++ rc.2)

/-- `RemoteTCP.close` invoked directly (remote EOF / connection_lost): latch,
gauge decrement, close the remote transport, then `self.local.close()`; the
nested `self._remote.close()` of that local close hits the freshly set remote latch. -/
def remoteTClose (s : Sys) : Sys × List Output :=
  match s.remote with
  | none => (s, [])
  | some r =>
    if r.is_closing then (s, [])
    else
      let s2 := { s with remote := some { r with is_closing := true, transport_closing := true } }
      let lc := localClose s2
      (lc.1, [Output.gauge (-1), Output.remoteTransportClose] ++ lc.2)

/-- `RemoteUDP.close`: latch, close its own transport, `del self.local`.
It does not touch the gauge and does not close the Session. -/
def remoteUClose (s : Sys) (i : Nat) : Sys × List Output :=
  match s.udp_remotes[i]? with
  | none => (s, [])
  | some r =>
    if r.is_closing then (s, [])
    else
      ({ s with udp_remotes :=
          s.udp_remotes.set i { r with is_closing := true, transport_closing := true,
                                       local_ref := false } },
       [Output.udpTransportClose i])

/-- `LocalHandler._handle_stage_stream`: `self._remote.write(data)`;
`RemoteTCP.write` drops the bytes when its transport is closing.  The
`none` branch is unreachable from reachable states (STREAM is entered only
after `_remote` is installed); Python would raise there. -/
def handle_stage_stream (s : Sys) (d : Bytes) : Sys × List Output :=
  match s.remote with
  | none => (s, [])
  | some r =>
    if r.transport_closing then (s, []) else (s, [Output.upstreamWrite d])

/-- `LocalHandler._handle_stage_connect`: buffer into `_connect_buffer` until
the remote is installed and ready, else advance to STREAM and forward. -/
def handle_stage_connect (s : Sys) (d : Bytes) : Sys × List Output :=
  match s.remote with
  | none => ({ s with connect_buffer := s.connect_buffer ++ d }, [])
  | some r =>
    if r.ready = false then ({ s with connect_buffer := s.connect_buffer ++ d }, [])
    else
      let st := handle_stage_stream { s with stage := Stage.sStream } d
      (st.1, Output.stageSet Stage.sStream :: st.2)

/-- Modelled from the spec: `core.py` line 143 calls
`self.create_datagram_endpoint`, which is not defined anywhere in the source
under review; per the spec the datagram-endpoint primitive of the host reactor
establishes a connected datagram socket toward `(host, port)` and fires
`RemoteUDP.connection_made`, which records the peer and sends the initial
payload (`self.write(self.data)`).  Whether creation succeeds is decided by
the `endpoint_ok` oracle; on failure the surrounding `except` branch of
`core.py` lines 147-150 runs: `self._stage = STAGE_ERROR; self.close()`
(spec 4.3 step 5: on failure, stage → ERROR and close). -/
def create_datagram_endpoint (cfg : Config) (s : Sys) (hdr : Hdr) (payload : Bytes) :
    Sys × List Output :=
  if cfg.endpoint_ok s hdr then
    ({ s with udp_remotes := s.udp_remotes ++
        [{ peer := (hdr.dst_ip, hdr.dst_port), is_closing := false,
           transport_closing := false, local_ref := true }] },
     [Output.upstreamSend payload])
  else
    let lc := localClose { s with stage := Stage.sError }
    (lc.1, Output.stageSet Stage.sError :: lc.2)

/-- `LocalHandler._handle_stage_init`: parse the header (any null field
closes the Session); for TCP set `_stage = STAGE_CONNECT`, feed the leftover
payload through the CONNECT handler, then await `loop.create_connection`
(completion arrives as `Event.remoteConnected` / `Event.connectFailed`);
for UDP create the datagram endpoint toward the destination. -/
def handle_stage_init (cfg : Config) (s : Sys) (d : Bytes) : Sys × List Output :=
  match cfg.parse_header d with
  | none => localClose s
  | some hdr =>
    if s.protocol = Transport.tcp then
      let c := handle_stage_connect { s with stage := Stage.sConnect } (d.drop hdr.header_length)
      ({ c.1 with connect_pending := true },
       Output.stageSet Stage.sConnect :: c.2 ++ [Output.connectInitiated])
    else
      create_datagram_endpoint cfg s hdr (d.drop hdr.header_length)

/-- `LocalHandler.handle_data_received` after the `cipher.decrypt` call:
a decrypt exception closes the Session; empty plaintext is ignored; otherwise
dispatch on `_stage` (ERROR and DESTROY both call `close`). -/
def handle_data_received (cfg : Config) (s : Sys) (o : DecOutcome) : Sys × List Output :=
  match o with
  | DecOutcome.fail => localClose s
  | DecOutcome.ok d =>
    if d = [] then (s, [])
    else
      match s.stage with
      | Stage.sInit => handle_stage_init cfg s d
      | Stage.sConnect => handle_stage_connect s d
      | Stage.sStream => handle_stage_stream s d
      | Stage.sError => localClose s
      | Stage.sDestroy => localClose s

/-- `RemoteTCP.connection_made` followed by the resumption of the INIT
coroutine: `transport.write(self.local._connect_buffer)`, `ready = True`,
both metrics, then `self._remote = remote_tcp` and
`self.cipher.record_user_ip(self._peername)`.  A completion with no pending
connect cannot occur. -/
def remote_connection_made (s : Sys) : Sys × List Output :=
  if s.connect_pending = false then (s, [])
  else
    ({ s with remote := some { ready := true, is_closing := false, transport_closing := false },
              connect_pending := false },
     [Output.upstreamWrite s.connect_buffer, Output.connMade, Output.gauge 1,
      Output.recordUserIp])

/-- The `except` branch around `loop.create_connection`:
`self._stage = STAGE_ERROR; self.close()`. -/
def remote_connection_failed (s : Sys) : Sys × List Output :=
  if s.connect_pending = false then (s, [])
  else
    let lc := localClose { s with stage := Stage.sError, connect_pending := false }
    (lc.1, Output.stageSet Stage.sError :: lc.2)

/-- `LocalHandler.write`: on TCP drop the bytes when the local transport is
closing, else write; on UDP `sendto` unconditionally.  The bytes are recorded
pre-encryption (the caller passes `cipher.encrypt(data)`). -/
def local_write (s : Sys) (d : Bytes) : List Output :=
  if s.protocol = Transport.tcp then
    if s.local_transport_closing then [] else [Output.clientSendPlain d]
  else [Output.clientSendPlain d]

/-- `RemoteTCP.data_received`: `self.local.write(self.cipher.encrypt(data))`. -/
def remote_data_received (s : Sys) (d : Bytes) : Sys × List Output :=
  (s, local_write s d)

/-- `socket.inet_pton` of the reply source address. -/
def packAddr : Addr → Bytes
  | Addr.v4 a b c d => [a, b, c, d]
  | Addr.v6 bs => bs

/-- `struct.pack("!H", port)`: 16-bit big-endian. -/
def be16 (p : Nat) : Bytes := [p / 256 % 256, p % 256]

/-- The pre-encryption reply packet built by `RemoteUDP.datagram_received`,
`core.py` line 331: `data = b"\x01" + addr + port + data` — the ATYP byte is
the constant `0x01` for every address family. -/
def udpReplyPlain (a : Addr) (p : Nat) (d : Bytes) : Bytes :=
  1 :: (packAddr a ++ be16 p ++ d)

/-- `RemoteUDP.datagram_received`: asserts the datagram comes from the bound
peer, builds the reply header, encrypts, and hands it to
`self.local.write`.  Datagrams for a closed endpoint are not delivered by the
reactor; a source mismatch fails the assert (no state change). -/
def udp_datagram_received (s : Sys) (i : Nat) (src : Addr × Nat) (d : Bytes) :
    Sys × List Output :=
  match s.udp_remotes[i]? with
  | none => (s, [])
  | some r =>
    if r.is_closing then (s, [])
    else if r.peer = src then (s, local_write s (udpReplyPlain src.1 src.2 d))
    else (s, [])

/-- One reactor event for one Session. -/
def step (cfg : Config) (s : Sys) : Event → Sys × List Output
  | Event.data o => handle_data_received cfg s o
  | Event.eof => localClose s
  | Event.connLost => localClose s
  | Event.remoteConnected => remote_connection_made s
  | Event.connectFailed => remote_connection_failed s
  | Event.remoteData d => remote_data_received s d
  | Event.remoteEof => remoteTClose s
  | Event.remoteConnLost => remoteTClose s
  | Event.udpReply i src d => udp_datagram_received s i src d
  | Event.udpErr i => remoteUClose s i
  | Event.udpConnLost i => remoteUClose s i

/-- Run a Session through a list of events, concatenating outputs. -/
def run (cfg : Config) : Sys → List Event → Sys × List Output
  | s, [] => (s, [])
  | s, e :: es =>
    let p := step cfg s e
    let q := run cfg p.1 es
    (q.1, p.2 ++ q.2)

/-- A TCP Session right after `LocalTCP.connection_made` ran
`handle_connection_made` (transport installed, stage INIT, cipher bound). -/
def initTCP : Sys :=
  { stage := Stage.sInit, is_closing := false, connect_buffer := [],
    protocol := Transport.tcp, has_cipher := true, local_transport_closing := false,
    remote := none, udp_remotes := [], connect_pending := false }

/-- A UDP Session right after `LocalUDP.datagram_received` registered a fresh
handler for a new peer (creation itself touches no metrics). -/
def initUDP : Sys := { initTCP with protocol := Transport.udp }

/-- The upstream stream writes (`RemoteTCP` transport writes) in an output
trace, in order. -/
def upstreamWrites : List Output → List Bytes
  | [] => []
  | Output.upstreamWrite d :: os => d :: upstreamWrites os
  | _ :: os => upstreamWrites os

/-- The pre-encryption client sends in an output trace, in order. -/
def clientSends : List Output → List Bytes
  | [] => []
  | Output.clientSendPlain d :: os => d :: clientSends os
  | _ :: os => clientSends os

/-- Number of upstream datagrams (`RemoteUDP` `sendto`) in an output trace. -/
def upSendCount : List Output → Nat
  | [] => 0
  | Output.upstreamSend _ :: os => 1 + upSendCount os
  | _ :: os => upSendCount os

/-- Net movement of the active-connection gauge in an output trace. -/
def gaugeSum : List Output → Int
  | [] => 0
  | Output.gauge k :: os => k + gaugeSum os
  | _ :: os => gaugeSum os

/-- Number of gauge increments (positive deltas) in an output trace. -/
def gaugeIncCount : List Output → Nat
  | [] => 0
  | Output.gauge k :: os => (if 0 < k then 1 else 0) + gaugeIncCount os
  | _ :: os => gaugeIncCount os

/-- Number of gauge decrements (negative deltas) in an output trace. -/
def gaugeDecCount : List Output → Nat
  | [] => 0
  | Output.gauge k :: os => (if k < 0 then 1 else 0) + gaugeDecCount os
  | _ :: os => gaugeDecCount os

/-- Number of `incr_user_tcp_num` calls in an output trace. -/
def incrTcpCount : List Output → Nat
  | [] => 0
  | Output.incrUserTcp _ :: os => 1 + incrTcpCount os
  | _ :: os => incrTcpCount os

/-- True when a trace touches no metric, no cipher counter and no transport
(stage re-assignments are the only effect). -/
def onlyStageSets : List Output → Bool
  | [] => true
  | Output.stageSet _ :: os => onlyStageSets os
  | _ :: _ => false

/-- Flatten a list of byte chunks. -/
def flatBytes : List Bytes → Bytes
  | [] => []
  | b :: bs => b ++ flatBytes bs

/-- Whether the `_remote` of the Session is installed and ready. -/
def readyB (s : Sys) : Bool :=
  match s.remote with
  | some r => r.ready
  | none => false

/-- The post-header plaintext payload the client delivers with one event:
the leftover after the header for a chunk handled in INIT (TCP), the whole
chunk in CONNECT or STREAM, nothing otherwise. -/
def deliveredOf (cfg : Config) (s : Sys) : Event → Bytes
  | Event.data (DecOutcome.ok d) =>
    if d = [] then []
    else
      match s.stage with
      | Stage.sInit =>
        (match cfg.parse_header d with
         | some hdr => if s.protocol = Transport.tcp then d.drop hdr.header_length else []
         | none => [])
      | Stage.sConnect => d
      | Stage.sStream => d
      | _ => []
  | _ => []

/-- Concatenation of post-header client payloads over a trace, in arrival
order. -/
def delivered (cfg : Config) : Sys → List Event → Bytes
  | _, [] => []
  | s, e :: es => deliveredOf cfg s e ++ delivered cfg (step cfg s e).1 es

/-- The stage moves the claim allows in one event: stay, advance
INIT→CONNECT or CONNECT→STREAM, move laterally to ERROR, or drop to
DESTROY (and only to DESTROY once there). -/
def stageOk (a b : Stage) : Bool :=
  b == Stage.sDestroy || a == b ||
  (a == Stage.sInit && b == Stage.sConnect) ||
  (a == Stage.sConnect && b == Stage.sStream) ||
  ((a == Stage.sInit || a == Stage.sConnect || a == Stage.sStream) && b == Stage.sError)

/-- One of the two halves of a Session, as a target for `close`. -/
inductive CloseHalf
  | chLocal
  | chRemote
deriving DecidableEq, Repr

/-- Call `close` on one half: the handler, or the Remote bound to it
(`RemoteTCP` for TCP Sessions, the `RemoteUDP` endpoint for UDP ones). -/
def closeHalf (s : Sys) : CloseHalf → Sys × List Output
  | CloseHalf.chLocal => localClose s
  | CloseHalf.chRemote =>
    if s.protocol = Transport.tcp then remoteTClose s else remoteUClose s 0

/-- Run a sequence of `close` calls. -/
def runCloses : Sys → List CloseHalf → Sys × List Output
  | s, [] => (s, [])
  | s, c :: cs =>
    let p := closeHalf s c
    let q := runCloses p.1 cs
    (q.1, p.2 ++ q.2)

/-- Whether a qualifying inbound UDP datagram: decrypts to non-empty data
while the Session is still in INIT, with a parseable header, and the
datagram endpoint toward its destination is successfully created. -/
def udpQualifies (cfg : Config) (s : Sys) : Event → Bool
  | Event.data (DecOutcome.ok d) =>
    !d.isEmpty && s.stage == Stage.sInit &&
      (match cfg.parse_header d with
       | some hdr => cfg.endpoint_ok s hdr
       | none => false)
  | _ => false

/-- Number of qualifying inbound datagrams over a trace. -/
def udpQualCount (cfg : Config) : Sys → List Event → Nat
  | _, [] => 0
  | s, e :: es =>
    (if udpQualifies cfg s e then 1 else 0) + udpQualCount cfg (step cfg s e).1 es

/-- A concrete header parser for witnesses: three header bytes
`[atyp, a, p]` resolving to IPv4 `8.8.8.8` port 53, anything shorter fails;
datagram endpoint creation always succeeds. -/
def cfg0 : Config :=
  { parse_header := fun d =>
      if d.length < 3 then none
      else some { atyp := 1, dst_ip := Addr.v4 8 8 8 8, dst_port := 53, header_length := 3 },
    endpoint_ok := fun _ _ => true }

/-- Like `cfg0`, but datagram endpoint creation always fails (the `except`
branch of `core.py` 147-150 always runs). -/
def cfgFail : Config :=
  { parse_header := cfg0.parse_header, endpoint_ok := fun _ _ => false }

/-- Reachability invariant for a TCP Session, relating the state to the
upstream writes `W` and the delivered post-header payload `D` produced so
far. -/
def TInv (s : Sys) (W : List Bytes) (D : Bytes) : Prop :=
  s.protocol = Transport.tcp ∧
  (s.remote = none → W = [] ∧ s.connect_buffer = D) ∧
  (∀ r, s.remote = some r → r.ready = true ∧ flatBytes W = D ∧ s.connect_pending = false) ∧
  (s.stage = Stage.sInit → s.remote = none ∧ s.connect_pending = false) ∧
  (s.stage ≠ Stage.sDestroy →
    s.is_closing = false ∧
    ∀ r, s.remote = some r → r.is_closing = false ∧ r.transport_closing = false) ∧
  (s.stage = Stage.sStream → s.remote.isSome = true)

/-- Reachability invariant for a UDP Session: `_remote` is never installed,
no stream connect is ever pending, the stage never leaves {INIT, DESTROY},
and the latch implies DESTROY. -/
def InvU (s : Sys) : Prop :=
  s.protocol = Transport.udp ∧
  s.remote = none ∧
  s.connect_pending = false ∧
  (s.stage = Stage.sInit ∨ s.stage = Stage.sDestroy) ∧
  (s.is_closing = true → s.stage = Stage.sDestroy)

/-- A live UDP Session with one live `RemoteUDP` endpoint bound to
`8.8.8.8:53` (reachable via one datagram carrying a valid header). -/
def cexUDPSys : Sys :=
  { initUDP with udp_remotes :=
      [{ peer := (Addr.v4 8 8 8 8, 53), is_closing := false,
         transport_closing := false, local_ref := true }] }

/-- A live UDP Session whose `RemoteUDP` endpoint is bound to the IPv6
destination `[2001:db8::1]:53`. -/
def cexUDPSys6 : Sys :=
  { initUDP with udp_remotes :=
      [{ peer := (Addr.v6 [32, 1, 13, 184, 0, 0, 0, 0, 0, 0, 0, 0, 0, 0, 0, 1], 53),
         is_closing := false, transport_closing := false, local_ref := true }] }

/-- A live TCP Session in STREAM with its remote installed and ready
(reachable via a handshake followed by `remoteConnected` and one chunk). -/
def cexTCPSys : Sys :=
  { stage := Stage.sStream, is_closing := false, connect_buffer := [],
    protocol := Transport.tcp, has_cipher := true, local_transport_closing := false,
    remote := some { ready := true, is_closing := false, transport_closing := false },
    udp_remotes := [], connect_pending := false }

/-- The `RemoteTCP` state of `cexTCPSys`. -/
def cexRemoteT : RemoteT :=
  { ready := true, is_closing := false, transport_closing := false }

/-- The `RemoteUDP` state of `cexUDPSys`. -/
def cexRemoteU : RemoteU :=
  { peer := (Addr.v4 8 8 8 8, 53), is_closing := false,
    transport_closing := false, local_ref := true }

theorem upstreamWrites_append (a b : List Output) :
    upstreamWrites (a ++ b) = upstreamWrites a ++ upstreamWrites b := by
  induction a with
  | nil => simp [upstreamWrites]
  | cons o t ih => cases o <;> simp [upstreamWrites, ih]

theorem clientSends_append (a b : List Output) :
    clientSends (a ++ b) = clientSends a ++ clientSends b := by
  induction a with
  | nil => simp [clientSends]
  | cons o t ih => cases o <;> simp [clientSends, ih]

theorem upSendCount_append (a b : List Output) :
    upSendCount (a ++ b) = upSendCount a + upSendCount b := by
  induction a with
  | nil => simp [upSendCount]
  | cons o t ih => cases o <;> simp [upSendCount, ih] <;> omega

theorem gaugeSum_append (a b : List Output) :
    gaugeSum (a ++ b) = gaugeSum a + gaugeSum b := by
  induction a with
  | nil => simp [gaugeSum]
  | cons o t ih => cases o <;> simp [gaugeSum, ih] <;> ring

theorem gaugeIncCount_append (a b : List Output) :
    gaugeIncCount (a ++ b) = gaugeIncCount a + gaugeIncCount b := by
  induction a with
  | nil => simp [gaugeIncCount]
  | cons o t ih => cases o <;> simp [gaugeIncCount, ih] <;> omega

theorem gaugeDecCount_append (a b : List Output) :
    gaugeDecCount (a ++ b) = gaugeDecCount a + gaugeDecCount b := by
  induction a with
  | nil => simp [gaugeDecCount]
  | cons o t ih => cases o <;> simp [gaugeDecCount, ih] <;> omega

theorem incrTcpCount_append (a b : List Output) :
    incrTcpCount (a ++ b) = incrTcpCount a + incrTcpCount b := by
  induction a with
  | nil => simp [incrTcpCount]
  | cons o t ih => cases o <;> simp [incrTcpCount, ih] <;> omega

theorem onlyStageSets_append (a b : List Output) :
    onlyStageSets (a ++ b) = (onlyStageSets a && onlyStageSets b) := by
  induction a with
  | nil => simp [onlyStageSets]
  | cons o t ih => cases o <;> simp [onlyStageSets, ih]

theorem flatBytes_append (a b : List Bytes) :
    flatBytes (a ++ b) = flatBytes a ++ flatBytes b := by
  induction a with
  | nil => simp [flatBytes]
  | cons x t ih => simp [flatBytes, ih]

theorem run_append (cfg : Config) (s : Sys) (a b : List Event) :
    run cfg s (a ++ b) =
      ((run cfg (run cfg s a).1 b).1, (run cfg s a).2 ++ (run cfg (run cfg s a).1 b).2) := by
  induction a generalizing s with
  | nil => simp [run]
  | cons e t ih => simp [run, ih]

theorem create_datagram_endpoint_ok {cfg : Config} {s : Sys} {hdr : Hdr}
    (payload : Bytes) (hok : cfg.endpoint_ok s hdr = true) :
    create_datagram_endpoint cfg s hdr payload =
      ({ s with udp_remotes := s.udp_remotes ++
          [{ peer := (hdr.dst_ip, hdr.dst_port), is_closing := false,
             transport_closing := false, local_ref := true }] },
       [Output.upstreamSend payload]) := by
  simp [create_datagram_endpoint, hok]

theorem create_datagram_endpoint_fail {cfg : Config} {s : Sys} {hdr : Hdr}
    (payload : Bytes) (hok : cfg.endpoint_ok s hdr = false) :
    create_datagram_endpoint cfg s hdr payload =
      ((localClose { s with stage := Stage.sError }).1,
       Output.stageSet Stage.sError ::
         (localClose { s with stage := Stage.sError }).2) := by
  simp [create_datagram_endpoint, hok]

theorem localClose_fst_stage (s : Sys) : (localClose s).1.stage = Stage.sDestroy := by
  cases hr : s.remote <;>
    simp only [localClose, remoteTCloseFromLocal, hr] <;> split_ifs <;> rfl

theorem localClose_fst_closing (s : Sys) : (localClose s).1.is_closing = true := by
  cases hr : s.remote <;>
    simp only [localClose, remoteTCloseFromLocal, hr] <;> split_ifs <;> simp_all

theorem localClose_fst_buffer (s : Sys) :
    (localClose s).1.connect_buffer = s.connect_buffer := by
  cases hr : s.remote <;>
    simp only [localClose, remoteTCloseFromLocal, hr] <;> split_ifs <;> rfl

theorem localClose_fst_pending (s : Sys) :
    (localClose s).1.connect_pending = s.connect_pending := by
  cases hr : s.remote <;>
    simp only [localClose, remoteTCloseFromLocal, hr] <;> split_ifs <;> rfl

theorem localClose_fst_protocol (s : Sys) :
    (localClose s).1.protocol = s.protocol := by
  cases hr : s.remote <;>
    simp only [localClose, remoteTCloseFromLocal, hr] <;> split_ifs <;> rfl

theorem localClose_fst_udp_remotes (s : Sys) :
    (localClose s).1.udp_remotes = s.udp_remotes := by
  cases hr : s.remote <;>
    simp only [localClose, remoteTCloseFromLocal, hr] <;> split_ifs <;> rfl

theorem localClose_remote_isSome (s : Sys) :
    (localClose s).1.remote.isSome = s.remote.isSome := by
  cases hr : s.remote <;>
    simp only [localClose, remoteTCloseFromLocal, hr] <;> split_ifs <;> rfl

theorem localClose_remote_ready (s : Sys) :
    (localClose s).1.remote.map RemoteT.ready = s.remote.map RemoteT.ready := by
  cases hr : s.remote <;>
    simp only [localClose, remoteTCloseFromLocal, hr] <;> split_ifs <;> rfl

theorem upstreamWrites_localClose (s : Sys) :
    upstreamWrites (localClose s).2 = [] := by
  cases hr : s.remote <;>
    simp only [localClose, remoteTCloseFromLocal, hr] <;> split_ifs <;>
      simp [upstreamWrites]

theorem remoteTClose_fst_buffer (s : Sys) :
    (remoteTClose s).1.connect_buffer = s.connect_buffer := by
  cases hr : s.remote
  · simp [remoteTClose, hr]
  · simp only [remoteTClose, hr]
    split_ifs
    · rfl
    · rw [localClose_fst_buffer]

theorem remoteTClose_fst_pending (s : Sys) :
    (remoteTClose s).1.connect_pending = s.connect_pending := by
  cases hr : s.remote
  · simp [remoteTClose, hr]
  · simp only [remoteTClose, hr]
    split_ifs
    · rfl
    · rw [localClose_fst_pending]

theorem remoteTClose_fst_protocol (s : Sys) :
    (remoteTClose s).1.protocol = s.protocol := by
  cases hr : s.remote
  · simp [remoteTClose, hr]
  · simp only [remoteTClose, hr]
    split_ifs
    · rfl
    · rw [localClose_fst_protocol]

theorem remoteTClose_fst_udp_remotes (s : Sys) :
    (remoteTClose s).1.udp_remotes = s.udp_remotes := by
  cases hr : s.remote
  · simp [remoteTClose, hr]
  · simp only [remoteTClose, hr]
    split_ifs
    · rfl
    · rw [localClose_fst_udp_remotes]

theorem upstreamWrites_remoteTClose (s : Sys) :
    upstreamWrites (remoteTClose s).2 = [] := by
  cases hr : s.remote
  · simp [remoteTClose, hr, upstreamWrites]
  · simp only [remoteTClose, hr]
    split_ifs
    · simp [upstreamWrites]
    · simp [upstreamWrites, upstreamWrites_localClose]

theorem tinv_localClose_of (s : Sys) (W : List Bytes) (D : Bytes)
    (h0 : s.protocol = Transport.tcp)
    (h1 : s.remote = none → W = [] ∧ s.connect_buffer = D)
    (h2 : ∀ r, s.remote = some r →
      r.ready = true ∧ flatBytes W = D ∧ s.connect_pending = false) :
    TInv (localClose s).1 W D := by
  refine ⟨?_, ?_, ?_, ?_, ?_, ?_⟩
  · rw [localClose_fst_protocol]; exact h0
  · intro hn
    have hiso := localClose_remote_isSome s
    rw [hn] at hiso
    cases hs2 : s.remote with
    | none => exact ⟨(h1 hs2).1, by rw [localClose_fst_buffer]; exact (h1 hs2).2⟩
    | some r => rw [hs2] at hiso; simp at hiso
  · intro r hr
    have hmap := localClose_remote_ready s
    rw [hr] at hmap
    cases hs2 : s.remote with
    | none => rw [hs2] at hmap; simp at hmap
    | some r0 =>
      rw [hs2] at hmap
      simp at hmap
      obtain ⟨hrd, hfw, hp⟩ := h2 r0 hs2
      exact ⟨by rw [hmap, hrd], hfw, by rw [localClose_fst_pending]; exact hp⟩
  · intro hst; rw [localClose_fst_stage] at hst; exact absurd hst (by decide)
  · intro hst; rw [localClose_fst_stage] at hst; exact absurd rfl hst
  · intro hst; rw [localClose_fst_stage] at hst; exact absurd hst (by decide)

theorem tinv_localClose {s : Sys} {W : List Bytes} {D : Bytes} (h : TInv s W D) :
    TInv (localClose s).1 W D :=
  tinv_localClose_of s W D h.1 h.2.1 h.2.2.1

theorem tinv_remoteTClose {s : Sys} {W : List Bytes} {D : Bytes} (h : TInv s W D) :
    TInv (remoteTClose s).1 W D := by
  obtain ⟨h0, h1, h2, h3, h4, h5⟩ := h
  cases hr : s.remote with
  | none => simpa [remoteTClose, hr] using ⟨h0, h1, h2, h3, h4, h5⟩
  | some r =>
    by_cases hc : r.is_closing = true
    · simpa [remoteTClose, hr, hc] using ⟨h0, h1, h2, h3, h4, h5⟩
    · simp only [remoteTClose, hr, hc, if_false]
      refine tinv_localClose_of _ _ _ h0 ?_ ?_
      · intro hn; simp at hn
      · intro r2 hr2
        simp only [Option.some.injEq] at hr2
        obtain ⟨hrd, hfw, hp⟩ := h2 r hr
        refine ⟨?_, hfw, hp⟩
        rw [← hr2]
        exact hrd

theorem udp_dgram_fst (s : Sys) (i : Nat) (src : Addr × Nat) (d : Bytes) :
    (udp_datagram_received s i src d).1 = s := by
  cases hg : s.udp_remotes[i]? <;>
    simp only [udp_datagram_received, hg] <;> split_ifs <;> rfl

theorem upstreamWrites_udp_dgram (s : Sys) (i : Nat) (src : Addr × Nat) (d : Bytes) :
    upstreamWrites (udp_datagram_received s i src d).2 = [] := by
  cases hg : s.udp_remotes[i]? with
  | none => simp [udp_datagram_received, hg, upstreamWrites]
  | some r =>
    simp only [udp_datagram_received, hg, local_write]
    split_ifs <;> simp [upstreamWrites]

theorem upstreamWrites_local_write (s : Sys) (d : Bytes) :
    upstreamWrites (local_write s d) = [] := by
  simp only [local_write]
  split_ifs <;> simp [upstreamWrites]

theorem remoteUClose_fst (s : Sys) (i : Nat) :
    (remoteUClose s i).1.stage = s.stage ∧ (remoteUClose s i).1.is_closing = s.is_closing ∧
    (remoteUClose s i).1.connect_buffer = s.connect_buffer ∧
    (remoteUClose s i).1.protocol = s.protocol ∧
    (remoteUClose s i).1.remote = s.remote ∧
    (remoteUClose s i).1.connect_pending = s.connect_pending := by
  cases hg : s.udp_remotes[i]? with
  | none => simp [remoteUClose, hg]
  | some r =>
    simp only [remoteUClose, hg]
    split_ifs <;> simp

theorem upstreamWrites_remoteUClose (s : Sys) (i : Nat) :
    upstreamWrites (remoteUClose s i).2 = [] := by
  cases hg : s.udp_remotes[i]? with
  | none => simp [remoteUClose, hg, upstreamWrites]
  | some r =>
    simp only [remoteUClose, hg]
    split_ifs <;> simp [upstreamWrites]

theorem tinv_remoteUClose {s : Sys} {W : List Bytes} {D : Bytes} (h : TInv s W D)
    (i : Nat) : TInv (remoteUClose s i).1 W D := by
  cases hg : s.udp_remotes[i]? <;> simp only [remoteUClose, hg]
  · exact h
  · split_ifs
    · exact h
    · exact h


theorem tinv_step (cfg : Config) {s : Sys} {W : List Bytes} {D : Bytes} (e : Event)
    (h : TInv s W D) :
    TInv (step cfg s e).1 (W ++ upstreamWrites (step cfg s e).2)
      (D ++ deliveredOf cfg s e) := by
  obtain ⟨h0, h1, h2, h3, h4, h5⟩ := h
  cases e with
  | eof =>
    simp only [step, deliveredOf, upstreamWrites_localClose, List.append_nil]
    exact tinv_localClose ⟨h0, h1, h2, h3, h4, h5⟩
  | connLost =>
    simp only [step, deliveredOf, upstreamWrites_localClose, List.append_nil]
    exact tinv_localClose ⟨h0, h1, h2, h3, h4, h5⟩
  | remoteEof =>
    simp only [step, deliveredOf, upstreamWrites_remoteTClose, List.append_nil]
    exact tinv_remoteTClose ⟨h0, h1, h2, h3, h4, h5⟩
  | remoteConnLost =>
    simp only [step, deliveredOf, upstreamWrites_remoteTClose, List.append_nil]
    exact tinv_remoteTClose ⟨h0, h1, h2, h3, h4, h5⟩
  | remoteData d =>
    simp only [step, remote_data_received, deliveredOf, upstreamWrites_local_write,
      List.append_nil]
    exact ⟨h0, h1, h2, h3, h4, h5⟩
  | udpReply i src d =>
    simp only [step, deliveredOf, upstreamWrites_udp_dgram, udp_dgram_fst, List.append_nil]
    exact ⟨h0, h1, h2, h3, h4, h5⟩
  | udpErr i =>
    simp only [step, deliveredOf, upstreamWrites_remoteUClose, List.append_nil]
    exact tinv_remoteUClose ⟨h0, h1, h2, h3, h4, h5⟩ i
  | udpConnLost i =>
    simp only [step, deliveredOf, upstreamWrites_remoteUClose, List.append_nil]
    exact tinv_remoteUClose ⟨h0, h1, h2, h3, h4, h5⟩ i
  | remoteConnected =>
    have hdel : deliveredOf cfg s Event.remoteConnected = [] := by simp [deliveredOf]
    cases hp : s.connect_pending with
    | false =>
      have hstep : step cfg s Event.remoteConnected = (s, []) := by
        simp [step, remote_connection_made, hp]
      rw [hstep, hdel]
      simpa [upstreamWrites] using (⟨h0, h1, h2, h3, h4, h5⟩ :
        TInv s W D)
    | true =>
      have hrn : s.remote = none := by
        cases hs2 : s.remote with
        | none => rfl
        | some r =>
          have hpend := (h2 r hs2).2.2
          rw [hp] at hpend
          exact absurd hpend (by decide)
      obtain ⟨hw, hb⟩ := h1 hrn
      have hstep : step cfg s Event.remoteConnected =
          ({ s with remote := some { ready := true, is_closing := false,
                                     transport_closing := false },
                    connect_pending := false },
           [Output.upstreamWrite s.connect_buffer, Output.connMade, Output.gauge 1,
            Output.recordUserIp]) := by
        simp [step, remote_connection_made, hp]
      rw [hstep, hdel]
      refine ⟨h0, ?_, ?_, ?_, ?_, ?_⟩
      · intro hn; simp at hn
      · intro r hr
        simp only [Option.some.injEq] at hr
        refine ⟨?_, ?_, rfl⟩
        · rw [← hr]
        · rw [hw, hb]; simp [upstreamWrites, flatBytes]
      · intro hst
        have hpend := (h3 hst).2
        rw [hp] at hpend
        exact absurd hpend (by decide)
      · intro hne
        have hne2 : s.stage ≠ Stage.sDestroy := hne
        refine ⟨(h4 hne2).1, ?_⟩
        intro r hr
        simp only [Option.some.injEq] at hr
        exact ⟨by rw [← hr], by rw [← hr]⟩
      · intro _; simp
  | connectFailed =>
    have hdel : deliveredOf cfg s Event.connectFailed = [] := by simp [deliveredOf]
    cases hp : s.connect_pending with
    | false =>
      have hstep : step cfg s Event.connectFailed = (s, []) := by
        simp [step, remote_connection_failed, hp]
      rw [hstep, hdel]
      simpa [upstreamWrites] using (⟨h0, h1, h2, h3, h4, h5⟩ : TInv s W D)
    | true =>
      have hstep : (step cfg s Event.connectFailed).1 =
          (localClose { s with stage := Stage.sError, connect_pending := false }).1 ∧
          upstreamWrites (step cfg s Event.connectFailed).2 = [] := by
        constructor
        · simp [step, remote_connection_failed, hp]
        · simp [step, remote_connection_failed, hp, upstreamWrites,
            upstreamWrites_localClose]
      rw [hstep.1, hstep.2, hdel]
      simp only [List.append_nil]
      apply tinv_localClose_of
      · exact h0
      · intro hn
        exact ⟨(h1 hn).1, (h1 hn).2⟩
      · intro r hr
        exact ⟨(h2 r hr).1, (h2 r hr).2.1, rfl⟩
  | data o =>
    cases o with
    | fail =>
      simp only [step, handle_data_received, deliveredOf, upstreamWrites_localClose,
        List.append_nil]
      exact tinv_localClose ⟨h0, h1, h2, h3, h4, h5⟩
    | ok d =>
      by_cases hd : d = []
      · subst hd
        have hstep : step cfg s (Event.data (DecOutcome.ok [])) = (s, []) := by
          simp [step, handle_data_received]
        have hdel : deliveredOf cfg s (Event.data (DecOutcome.ok [])) = [] := by
          simp [deliveredOf]
        rw [hstep, hdel]
        simpa [upstreamWrites] using (⟨h0, h1, h2, h3, h4, h5⟩ : TInv s W D)
      · cases hst : s.stage with
        | sError =>
          have hstep : step cfg s (Event.data (DecOutcome.ok d)) = localClose s := by
            simp [step, handle_data_received, hst, hd]
          have hdel : deliveredOf cfg s (Event.data (DecOutcome.ok d)) = [] := by
            simp [deliveredOf, hd, hst]
          rw [hstep, hdel, upstreamWrites_localClose]
          simp only [List.append_nil]
          exact tinv_localClose ⟨h0, h1, h2, h3, h4, h5⟩
        | sDestroy =>
          have hstep : step cfg s (Event.data (DecOutcome.ok d)) = localClose s := by
            simp [step, handle_data_received, hst, hd]
          have hdel : deliveredOf cfg s (Event.data (DecOutcome.ok d)) = [] := by
            simp [deliveredOf, hd, hst]
          rw [hstep, hdel, upstreamWrites_localClose]
          simp only [List.append_nil]
          exact tinv_localClose ⟨h0, h1, h2, h3, h4, h5⟩
        | sInit =>
          cases hph : cfg.parse_header d with
          | none =>
            have hstep : step cfg s (Event.data (DecOutcome.ok d)) = localClose s := by
              simp [step, handle_data_received, hst, hd, handle_stage_init, hph]
            have hdel : deliveredOf cfg s (Event.data (DecOutcome.ok d)) = [] := by
              simp [deliveredOf, hd, hst, hph]
            rw [hstep, hdel, upstreamWrites_localClose]
            simp only [List.append_nil]
            exact tinv_localClose ⟨h0, h1, h2, h3, h4, h5⟩
          | some hdr =>
            have hrn := (h3 hst).1
            have hstep : step cfg s (Event.data (DecOutcome.ok d)) =
                ({ s with stage := Stage.sConnect,
                          connect_buffer := s.connect_buffer ++ d.drop hdr.header_length,
                          connect_pending := true },
                 [Output.stageSet Stage.sConnect, Output.connectInitiated]) := by
              simp [step, handle_data_received, hst, hd, handle_stage_init, hph, h0,
                handle_stage_connect, hrn]
            have hdel : deliveredOf cfg s (Event.data (DecOutcome.ok d)) =
                d.drop hdr.header_length := by
              simp [deliveredOf, hd, hst, hph, h0]
            rw [hstep, hdel]
            refine ⟨h0, ?_, ?_, ?_, ?_, ?_⟩
            · intro _
              refine ⟨?_, ?_⟩
              · rw [(h1 hrn).1]; simp [upstreamWrites]
              · show s.connect_buffer ++ d.drop hdr.header_length = _
                rw [(h1 hrn).2]
            · intro r hr
              simp only at hr
              rw [hrn] at hr
              exact absurd hr (by simp)
            · intro hst2
              simp at hst2
            · intro _
              refine ⟨(h4 (by rw [hst]; decide)).1, ?_⟩
              intro r hr
              simp only at hr
              rw [hrn] at hr
              exact absurd hr (by simp)
            · intro hst2
              simp at hst2
        | sConnect =>
          cases hrr : s.remote with
          | none =>
            have hstep : step cfg s (Event.data (DecOutcome.ok d)) =
                ({ s with connect_buffer := s.connect_buffer ++ d }, []) := by
              simp [step, handle_data_received, hst, hd, handle_stage_connect, hrr]
            have hdel : deliveredOf cfg s (Event.data (DecOutcome.ok d)) = d := by
              simp [deliveredOf, hd, hst]
            rw [hstep, hdel]
            refine ⟨h0, ?_, ?_, ?_, ?_, ?_⟩
            · intro _
              refine ⟨?_, ?_⟩
              · rw [(h1 hrr).1]; simp [upstreamWrites]
              · show s.connect_buffer ++ d = _
                rw [(h1 hrr).2]
            · intro r hr
              simp only at hr
              rw [hrr] at hr
              exact absurd hr (by simp)
            · intro hst2
              simp only at hst2
              rw [hst] at hst2
              exact absurd hst2 (by decide)
            · intro _
              refine ⟨(h4 (by rw [hst]; decide)).1, ?_⟩
              intro r hr
              simp only at hr
              rw [hrr] at hr
              exact absurd hr (by simp)
            · intro hst2
              simp only at hst2
              rw [hst] at hst2
              exact absurd hst2 (by decide)
          | some r =>
            have hready := (h2 r hrr).1
            have hnc := (h4 (by rw [hst]; decide)).2 r hrr
            have hstep : step cfg s (Event.data (DecOutcome.ok d)) =
                ({ s with stage := Stage.sStream },
                 [Output.stageSet Stage.sStream, Output.upstreamWrite d]) := by
              simp [step, handle_data_received, hst, hd, handle_stage_connect, hrr,
                hready, handle_stage_stream, hnc.2]
            have hdel : deliveredOf cfg s (Event.data (DecOutcome.ok d)) = d := by
              simp [deliveredOf, hd, hst]
            rw [hstep, hdel]
            refine ⟨h0, ?_, ?_, ?_, ?_, ?_⟩
            · intro hn
              simp only at hn
              rw [hrr] at hn
              exact absurd hn (by simp)
            · intro r2 hr2
              simp only at hr2
              rw [hrr, Option.some.injEq] at hr2
              refine ⟨by rw [← hr2]; exact hready, ?_,
                show s.connect_pending = false from (h2 r hrr).2.2⟩
              simp [upstreamWrites, flatBytes_append, flatBytes, (h2 r hrr).2.1]
            · intro hst2
              simp at hst2
            · intro _
              refine ⟨(h4 (by rw [hst]; decide)).1, ?_⟩
              intro r2 hr2
              simp only at hr2
              rw [hrr, Option.some.injEq] at hr2
              exact ⟨by rw [← hr2]; exact hnc.1, by rw [← hr2]; exact hnc.2⟩
            · intro _
              simp [hrr]
        | sStream =>
          have hsome := h5 hst
          cases hrr : s.remote with
          | none =>
            rw [hrr] at hsome
            simp at hsome
          | some r =>
            have hready := (h2 r hrr).1
            have hnc := (h4 (by rw [hst]; decide)).2 r hrr
            have hstep : step cfg s (Event.data (DecOutcome.ok d)) =
                (s, [Output.upstreamWrite d]) := by
              simp [step, handle_data_received, hst, hd, handle_stage_stream, hrr, hnc.2]
            have hdel : deliveredOf cfg s (Event.data (DecOutcome.ok d)) = d := by
              simp [deliveredOf, hd, hst]
            rw [hstep, hdel]
            refine ⟨h0, ?_, ?_, ?_, ?_, ?_⟩
            · intro hn
              rw [hrr] at hn
              exact absurd hn (by simp)
            · intro r2 hr2
              rw [hrr, Option.some.injEq] at hr2
              refine ⟨by rw [← hr2]; exact hready, ?_,
                (h2 r hrr).2.2⟩
              simp [upstreamWrites, flatBytes_append, flatBytes, (h2 r hrr).2.1]
            · intro hst2
              rw [hst] at hst2
              exact absurd hst2 (by decide)
            · intro hne
              exact h4 hne
            · intro _
              rw [hrr]
              rfl

theorem tinv_init : TInv initTCP [] [] := by
  refine ⟨rfl, ?_, ?_, ?_, ?_, ?_⟩
  · intro _; exact ⟨rfl, rfl⟩
  · intro r hr; simp [initTCP] at hr
  · intro _; exact ⟨rfl, rfl⟩
  · intro _
    refine ⟨rfl, ?_⟩
    intro r hr; simp [initTCP] at hr
  · intro hst; simp [initTCP] at hst

theorem tinv_run (cfg : Config) (tr : List Event) :
    ∀ (s : Sys) (W : List Bytes) (D : Bytes), TInv s W D →
      TInv (run cfg s tr).1 (W ++ upstreamWrites (run cfg s tr).2)
        (D ++ delivered cfg s tr) := by
  induction tr with
  | nil =>
    intro s W D h
    simpa [run, upstreamWrites, delivered] using h
  | cons e es ih =>
    intro s W D h
    have h1 := tinv_step cfg e h
    have h2 := ih (step cfg s e).1 _ _ h1
    simpa [run, delivered, upstreamWrites_append, List.append_assoc] using h2

theorem step_remote_isSome (cfg : Config) (s : Sys) (e : Event)
    (h : s.remote.isSome = true) : (step cfg s e).1.remote.isSome = true := by
  cases hr : s.remote with
  | none => rw [hr] at h; simp at h
  | some r =>
    cases e with
    | eof => rw [step]; rw [localClose_remote_isSome]; exact h
    | connLost => rw [step]; rw [localClose_remote_isSome]; exact h
    | remoteEof =>
      rw [step]
      simp only [remoteTClose, hr]
      split_ifs
      · rw [hr]; rfl
      · rw [localClose_remote_isSome]; rfl
    | remoteConnLost =>
      rw [step]
      simp only [remoteTClose, hr]
      split_ifs
      · rw [hr]; rfl
      · rw [localClose_remote_isSome]; rfl
    | remoteConnected =>
      rw [step]
      simp only [remote_connection_made]
      split_ifs
      · rw [hr]; rfl
      · rfl
    | connectFailed =>
      rw [step]
      simp only [remote_connection_failed]
      split_ifs
      · rw [hr]; rfl
      · rw [localClose_remote_isSome]; simp [hr]
    | remoteData d => rw [step]; simp only [remote_data_received]; rw [hr]; rfl
    | udpReply i src d => rw [step]; rw [udp_dgram_fst, hr]; rfl
    | udpErr i => rw [step]; rw [(remoteUClose_fst s i).2.2.2.2.1, hr]; rfl
    | udpConnLost i => rw [step]; rw [(remoteUClose_fst s i).2.2.2.2.1, hr]; rfl
    | data o =>
      cases o with
      | fail => rw [step]; simp only [handle_data_received]; rw [localClose_remote_isSome]; exact h
      | ok d =>
        by_cases hd : d = []
        · subst hd
          rw [step]
          simp [handle_data_received, hr]
        · cases hst : s.stage with
          | sError =>
            rw [step]; simp only [handle_data_received, hst, if_neg hd]
            rw [localClose_remote_isSome]; exact h
          | sDestroy =>
            rw [step]; simp only [handle_data_received, hst, if_neg hd]
            rw [localClose_remote_isSome]; exact h
          | sInit =>
            rw [step]; simp only [handle_data_received, hst, if_neg hd,
              handle_stage_init]
            cases hph : cfg.parse_header d with
            | none => rw [localClose_remote_isSome]; exact h
            | some hdr =>
              split_ifs
              · simp only [handle_stage_connect]
                simp only [hr]
                split_ifs
                · simp [hr]
                · simp only [handle_stage_stream, hr]
                  split_ifs <;> simp [hr]
              · dsimp only
                cases hok : cfg.endpoint_ok s hdr with
                | true =>
                  rw [create_datagram_endpoint_ok _ hok]
                  simp [hr]
                | false =>
                  rw [create_datagram_endpoint_fail _ hok, localClose_remote_isSome]
                  simp [hr]
          | sConnect =>
            rw [step]
            simp only [handle_data_received, hst, if_neg hd, handle_stage_connect, hr]
            split_ifs
            · simp
            · simp only [handle_stage_stream]
              split_ifs <;> simp
          | sStream =>
            rw [step]
            simp only [handle_data_received, hst, if_neg hd, handle_stage_stream, hr]
            split_ifs <;> simp [hr]

theorem run_remote_isSome (cfg : Config) (tr : List Event) :
    ∀ s : Sys, s.remote.isSome = true → (run cfg s tr).1.remote.isSome = true := by
  induction tr with
  | nil => intro s h; simpa [run] using h
  | cons e es ih =>
    intro s h
    simpa [run] using ih (step cfg s e).1 (step_remote_isSome cfg s e h)

/-- C1: for every TCP Session whose upstream connect completed, the
concatenation of the bytes written to the upstream remote equals the
concatenation of the post-header decrypted payload bytes delivered by the
client, in arrival order: the leftover payload after the header, the chunks
buffered during CONNECT and the STREAM-stage chunks reach the upstream
exactly once and in order. -/
theorem tcp_upstream_byte_order (cfg : Config) (tr : List Event)
    (h : readyB (run cfg initTCP tr).1 = true) :
    flatBytes (upstreamWrites (run cfg initTCP tr).2) = delivered cfg initTCP tr := by
  have hinv := tinv_run cfg tr initTCP [] [] tinv_init
  simp only [List.nil_append] at hinv
  cases hr : (run cfg initTCP tr).1.remote with
  | none => simp [readyB, hr] at h
  | some r => exact (hinv.2.2.1 r hr).2.1

/-- Witness for C1: a concrete TCP Session delivering a header plus leftover
`[7, 7]`, then a chunk `[9, 9]` after the remote became ready; the upstream
sees `[7, 7, 9, 9]`. -/
theorem tcp_upstream_byte_order_witness :
    readyB (run cfg0 initTCP [Event.data (DecOutcome.ok [1, 1, 1, 7, 7]),
        Event.remoteConnected, Event.data (DecOutcome.ok [9, 9])]).1 = true ∧
    flatBytes (upstreamWrites (run cfg0 initTCP [Event.data (DecOutcome.ok [1, 1, 1, 7, 7]),
        Event.remoteConnected, Event.data (DecOutcome.ok [9, 9])]).2) =
      delivered cfg0 initTCP [Event.data (DecOutcome.ok [1, 1, 1, 7, 7]),
        Event.remoteConnected, Event.data (DecOutcome.ok [9, 9])] :=
  ⟨by decide, tcp_upstream_byte_order cfg0 [Event.data (DecOutcome.ok [1, 1, 1, 7, 7]),
    Event.remoteConnected, Event.data (DecOutcome.ok [9, 9])] (by decide)⟩

/-- C2: for every TCP Session in which bytes land in `_connect_buffer` during
CONNECT (remote not yet installed, connect in flight), the buffered bytes are
drained to the upstream exactly once, as the very first upstream write,
immediately when the remote becomes ready, before any STREAM-stage bytes; the
writes after the drain account exactly for the payload delivered after
readiness, so the buffer is not used again. -/
theorem tcp_pending_drain (cfg : Config) (tr1 tr2 : List Event)
    (h1 : (run cfg initTCP tr1).1.remote = none)
    (h2 : (run cfg initTCP tr1).1.connect_pending = true) :
    upstreamWrites (run cfg initTCP tr1).2 = [] ∧
    upstreamWrites (run cfg initTCP (tr1 ++ Event.remoteConnected :: tr2)).2 =
      (run cfg initTCP tr1).1.connect_buffer ::
        upstreamWrites (run cfg (step cfg (run cfg initTCP tr1).1
          Event.remoteConnected).1 tr2).2 ∧
    flatBytes (upstreamWrites (run cfg (step cfg (run cfg initTCP tr1).1
        Event.remoteConnected).1 tr2).2) =
      delivered cfg (step cfg (run cfg initTCP tr1).1 Event.remoteConnected).1 tr2 := by
  have hinv := tinv_run cfg tr1 initTCP [] [] tinv_init
  simp only [List.nil_append] at hinv
  have hW1 : upstreamWrites (run cfg initTCP tr1).2 = [] := (hinv.2.1 h1).1
  have hstep : step cfg (run cfg initTCP tr1).1 Event.remoteConnected =
      ({ (run cfg initTCP tr1).1 with
           remote := some { ready := true, is_closing := false,
                            transport_closing := false },
           connect_pending := false },
       [Output.upstreamWrite (run cfg initTCP tr1).1.connect_buffer, Output.connMade,
        Output.gauge 1, Output.recordUserIp]) := by
    simp [step, remote_connection_made, h2]
  have hinv2 : TInv (step cfg (run cfg initTCP tr1).1 Event.remoteConnected).1 [] [] := by
    rw [hstep]
    refine ⟨hinv.1, ?_, ?_, ?_, ?_, ?_⟩
    · intro hn; simp at hn
    · intro r hr
      simp only [Option.some.injEq] at hr
      exact ⟨by rw [← hr], rfl, rfl⟩
    · intro hst
      have hpend := (hinv.2.2.2.1 hst).2
      rw [h2] at hpend
      exact absurd hpend (by decide)
    · intro hne
      have hne2 : (run cfg initTCP tr1).1.stage ≠ Stage.sDestroy := hne
      refine ⟨(hinv.2.2.2.2.1 hne2).1, ?_⟩
      intro r hr
      simp only [Option.some.injEq] at hr
      exact ⟨by rw [← hr], by rw [← hr]⟩
    · intro _; simp
  have hfin := tinv_run cfg tr2 _ [] [] hinv2
  simp only [List.nil_append] at hfin
  have hsome : (run cfg (step cfg (run cfg initTCP tr1).1
      Event.remoteConnected).1 tr2).1.remote.isSome = true := by
    apply run_remote_isSome
    rw [hstep]
    rfl
  refine ⟨hW1, ?_, ?_⟩
  · rw [run_append]
    rw [upstreamWrites_append, hW1]
    have : run cfg (run cfg initTCP tr1).1 (Event.remoteConnected :: tr2) =
        ((run cfg (step cfg (run cfg initTCP tr1).1 Event.remoteConnected).1 tr2).1,
         (step cfg (run cfg initTCP tr1).1 Event.remoteConnected).2 ++
           (run cfg (step cfg (run cfg initTCP tr1).1 Event.remoteConnected).1 tr2).2) := by
      rw [run]
    rw [this, upstreamWrites_append, hstep]
    simp [upstreamWrites]
  · cases hr : (run cfg (step cfg (run cfg initTCP tr1).1
        Event.remoteConnected).1 tr2).1.remote with
    | none => rw [hr] at hsome; simp at hsome
    | some r => exact (hfin.2.2.1 r hr).2.1

/-- Witness for C2: a concrete Session buffering `[7, 7]` during CONNECT; on
remote readiness the first upstream write is exactly `[7, 7]`, and the
post-drain writes equal the later STREAM payload `[9, 9]`. -/
theorem tcp_pending_drain_witness :
    (run cfg0 initTCP [Event.data (DecOutcome.ok [1, 1, 1, 7, 7])]).1.remote = none ∧
    (run cfg0 initTCP [Event.data (DecOutcome.ok [1, 1, 1, 7, 7])]).1.connect_pending
      = true ∧
    (upstreamWrites (run cfg0 initTCP [Event.data (DecOutcome.ok [1, 1, 1, 7, 7])]).2
        = [] ∧
     upstreamWrites (run cfg0 initTCP ([Event.data (DecOutcome.ok [1, 1, 1, 7, 7])] ++
        Event.remoteConnected :: [Event.data (DecOutcome.ok [9, 9])])).2 =
      (run cfg0 initTCP [Event.data (DecOutcome.ok [1, 1, 1, 7, 7])]).1.connect_buffer ::
        upstreamWrites (run cfg0 (step cfg0 (run cfg0 initTCP
          [Event.data (DecOutcome.ok [1, 1, 1, 7, 7])]).1
          Event.remoteConnected).1 [Event.data (DecOutcome.ok [9, 9])]).2 ∧
     flatBytes (upstreamWrites (run cfg0 (step cfg0 (run cfg0 initTCP
          [Event.data (DecOutcome.ok [1, 1, 1, 7, 7])]).1
          Event.remoteConnected).1 [Event.data (DecOutcome.ok [9, 9])]).2) =
      delivered cfg0 (step cfg0 (run cfg0 initTCP
          [Event.data (DecOutcome.ok [1, 1, 1, 7, 7])]).1
          Event.remoteConnected).1 [Event.data (DecOutcome.ok [9, 9])]) :=
  ⟨by decide, by decide,
   tcp_pending_drain cfg0 [Event.data (DecOutcome.ok [1, 1, 1, 7, 7])]
     [Event.data (DecOutcome.ok [9, 9])] (by decide) (by decide)⟩

theorem localClose_remote_none {s : Sys} (h : s.remote = none) :
    (localClose s).1.remote = none := by
  have hiso := localClose_remote_isSome s
  rw [h] at hiso
  cases hl : (localClose s).1.remote with
  | none => rfl
  | some r => rw [hl] at hiso; simp at hiso

theorem remoteTClose_none {s : Sys} (h : s.remote = none) :
    remoteTClose s = (s, []) := by
  simp [remoteTClose, h]

theorem handle_stage_stream_fst (s : Sys) (d : Bytes) :
    (handle_stage_stream s d).1 = s := by
  cases hr : s.remote with
  | none => simp [handle_stage_stream, hr]
  | some r =>
    simp only [handle_stage_stream, hr]
    split_ifs <;> rfl

theorem remote_connection_made_fst_stage (s : Sys) :
    (remote_connection_made s).1.stage = s.stage := by
  simp only [remote_connection_made]
  split_ifs <;> rfl

theorem invU_init : InvU initUDP := by
  refine ⟨rfl, rfl, rfl, Or.inl rfl, ?_⟩
  intro hc; simp [initUDP, initTCP] at hc

theorem invU_localClose {s : Sys} (h : InvU s) : InvU (localClose s).1 := by
  obtain ⟨h0, h1, h2, h3, h4⟩ := h
  refine ⟨?_, ?_, ?_, Or.inr (localClose_fst_stage s), ?_⟩
  · rw [localClose_fst_protocol]; exact h0
  · exact localClose_remote_none h1
  · rw [localClose_fst_pending]; exact h2
  · intro _; exact localClose_fst_stage s

theorem invU_step (cfg : Config) {s : Sys} (e : Event) (h : InvU s) :
    InvU (step cfg s e).1 := by
  obtain ⟨h0, h1, h2, h3, h4⟩ := h
  cases e with
  | eof => exact invU_localClose ⟨h0, h1, h2, h3, h4⟩
  | connLost => exact invU_localClose ⟨h0, h1, h2, h3, h4⟩
  | remoteEof =>
    rw [step, remoteTClose_none h1]
    exact ⟨h0, h1, h2, h3, h4⟩
  | remoteConnLost =>
    rw [step, remoteTClose_none h1]
    exact ⟨h0, h1, h2, h3, h4⟩
  | remoteConnected =>
    have hstep : step cfg s Event.remoteConnected = (s, []) := by
      simp [step, remote_connection_made, h2]
    rw [hstep]
    exact ⟨h0, h1, h2, h3, h4⟩
  | connectFailed =>
    have hstep : step cfg s Event.connectFailed = (s, []) := by
      simp [step, remote_connection_failed, h2]
    rw [hstep]
    exact ⟨h0, h1, h2, h3, h4⟩
  | remoteData d =>
    rw [step]
    exact ⟨h0, h1, h2, h3, h4⟩
  | udpReply i src d =>
    rw [step]
    rw [show (udp_datagram_received s i src d).1 = s from udp_dgram_fst s i src d]
    exact ⟨h0, h1, h2, h3, h4⟩
  | udpErr i =>
    rw [step]
    obtain ⟨f1, f2, _, f4, f5, f6⟩ := remoteUClose_fst s i
    exact ⟨by rw [f4]; exact h0, by rw [f5]; exact h1, by rw [f6]; exact h2,
      by rw [f1]; exact h3, by rw [f2, f1]; exact h4⟩
  | udpConnLost i =>
    rw [step]
    obtain ⟨f1, f2, _, f4, f5, f6⟩ := remoteUClose_fst s i
    exact ⟨by rw [f4]; exact h0, by rw [f5]; exact h1, by rw [f6]; exact h2,
      by rw [f1]; exact h3, by rw [f2, f1]; exact h4⟩
  | data o =>
    cases o with
    | fail => exact invU_localClose ⟨h0, h1, h2, h3, h4⟩
    | ok d =>
      by_cases hd : d = []
      · subst hd
        have hstep : step cfg s (Event.data (DecOutcome.ok [])) = (s, []) := by
          simp [step, handle_data_received]
        rw [hstep]
        exact ⟨h0, h1, h2, h3, h4⟩
      · cases h3 with
        | inr hdes =>
          have hstep : step cfg s (Event.data (DecOutcome.ok d)) = localClose s := by
            simp [step, handle_data_received, hdes, hd]
          rw [hstep]
          exact invU_localClose ⟨h0, h1, h2, Or.inr hdes, h4⟩
        | inl hini =>
          cases hph : cfg.parse_header d with
          | none =>
            have hstep : step cfg s (Event.data (DecOutcome.ok d)) = localClose s := by
              simp [step, handle_data_received, hini, hd, handle_stage_init, hph]
            rw [hstep]
            exact invU_localClose ⟨h0, h1, h2, Or.inl hini, h4⟩
          | some hdr =>
            have hstep : step cfg s (Event.data (DecOutcome.ok d)) =
                create_datagram_endpoint cfg s hdr (d.drop hdr.header_length) := by
              simp [step, handle_data_received, hini, hd, handle_stage_init, hph, h0]
            rw [hstep]
            cases hok : cfg.endpoint_ok s hdr with
            | true =>
              rw [create_datagram_endpoint_ok _ hok]
              refine ⟨h0, h1, h2, Or.inl hini, ?_⟩
              intro hc
              have hdes := h4 hc
              rw [hini] at hdes
              exact absurd hdes (by decide)
            | false =>
              rw [create_datagram_endpoint_fail _ hok]
              refine ⟨?_, ?_, ?_, Or.inr (localClose_fst_stage _), ?_⟩
              · rw [localClose_fst_protocol]; exact h0
              · exact localClose_remote_none h1
              · rw [localClose_fst_pending]; exact h2
              · intro _; exact localClose_fst_stage _

theorem invU_run (cfg : Config) (tr : List Event) :
    ∀ s : Sys, InvU s → InvU (run cfg s tr).1 := by
  induction tr with
  | nil => intro s h; simpa [run] using h
  | cons e es ih =>
    intro s h
    simpa [run] using ih (step cfg s e).1 (invU_step cfg e h)

theorem stageOk_destroy (a : Stage) : stageOk a Stage.sDestroy = true := by
  cases a <;> rfl

theorem stageOk_refl (a : Stage) : stageOk a a = true := by
  cases a <;> rfl

theorem remoteTClose_fst_stage (s : Sys) :
    (remoteTClose s).1.stage = s.stage ∨ (remoteTClose s).1.stage = Stage.sDestroy := by
  cases hr : s.remote with
  | none => left; rw [remoteTClose_none hr]
  | some r =>
    by_cases hc : r.is_closing = true
    · left; simp [remoteTClose, hr, hc]
    · right
      simp only [remoteTClose, hr, hc, if_false]
      exact localClose_fst_stage _

theorem tinv_stageOk (cfg : Config) {s : Sys} {W : List Bytes} {D : Bytes} (e : Event)
    (h : TInv s W D) : stageOk s.stage (step cfg s e).1.stage = true := by
  obtain ⟨h0, h1, h2, h3, h4, h5⟩ := h
  cases e with
  | eof => rw [step, localClose_fst_stage]; exact stageOk_destroy _
  | connLost => rw [step, localClose_fst_stage]; exact stageOk_destroy _
  | remoteEof =>
    rcases remoteTClose_fst_stage s with hh | hh
    · rw [step, hh]; exact stageOk_refl _
    · rw [step, hh]; exact stageOk_destroy _
  | remoteConnLost =>
    rcases remoteTClose_fst_stage s with hh | hh
    · rw [step, hh]; exact stageOk_refl _
    · rw [step, hh]; exact stageOk_destroy _
  | remoteConnected =>
    rw [step, remote_connection_made_fst_stage]; exact stageOk_refl _
  | connectFailed =>
    cases hp : s.connect_pending with
    | false =>
      have hstep : step cfg s Event.connectFailed = (s, []) := by
        simp [step, remote_connection_failed, hp]
      rw [hstep]; exact stageOk_refl _
    | true =>
      have hstage : (step cfg s Event.connectFailed).1.stage = Stage.sDestroy := by
        simp [step, remote_connection_failed, hp, localClose_fst_stage]
      rw [hstage]; exact stageOk_destroy _
  | remoteData d =>
    show stageOk s.stage s.stage = true
    exact stageOk_refl _
  | udpReply i src d => rw [step, udp_dgram_fst]; exact stageOk_refl _
  | udpErr i => rw [step, (remoteUClose_fst s i).1]; exact stageOk_refl _
  | udpConnLost i => rw [step, (remoteUClose_fst s i).1]; exact stageOk_refl _
  | data o =>
    cases o with
    | fail =>
      have hstage : (step cfg s (Event.data DecOutcome.fail)).1.stage =
          Stage.sDestroy := by
        simp [step, handle_data_received, localClose_fst_stage]
      rw [hstage]; exact stageOk_destroy _
    | ok d =>
      by_cases hd : d = []
      · subst hd
        have hstep : step cfg s (Event.data (DecOutcome.ok [])) = (s, []) := by
          simp [step, handle_data_received]
        rw [hstep]; exact stageOk_refl _
      · cases hst : s.stage with
        | sError =>
          have hstage : (step cfg s (Event.data (DecOutcome.ok d))).1.stage =
              Stage.sDestroy := by
            simp [step, handle_data_received, hst, hd, localClose_fst_stage]
          rw [hstage]; exact stageOk_destroy _
        | sDestroy =>
          have hstage : (step cfg s (Event.data (DecOutcome.ok d))).1.stage =
              Stage.sDestroy := by
            simp [step, handle_data_received, hst, hd, localClose_fst_stage]
          rw [hstage]; exact stageOk_destroy _
        | sInit =>
          cases hph : cfg.parse_header d with
          | none =>
            have hstage : (step cfg s (Event.data (DecOutcome.ok d))).1.stage =
                Stage.sDestroy := by
              simp [step, handle_data_received, hst, hd, handle_stage_init, hph,
                localClose_fst_stage]
            rw [hstage]; decide
          | some hdr =>
            have hrn := (h3 hst).1
            have hstage : (step cfg s (Event.data (DecOutcome.ok d))).1.stage =
                Stage.sConnect := by
              simp [step, handle_data_received, hst, hd, handle_stage_init, hph, h0,
                handle_stage_connect, hrn]
            rw [hstage]; decide
        | sConnect =>
          cases hrr : s.remote with
          | none =>
            have hstage : (step cfg s (Event.data (DecOutcome.ok d))).1.stage =
                Stage.sConnect := by
              simp [step, handle_data_received, hst, hd, handle_stage_connect, hrr]
            rw [hstage]; decide
          | some r =>
            have hready := (h2 r hrr).1
            have hstage : (step cfg s (Event.data (DecOutcome.ok d))).1.stage =
                Stage.sStream := by
              simp [step, handle_data_received, hst, hd, handle_stage_connect, hrr,
                hready, handle_stage_stream_fst]
            rw [hstage]; decide
        | sStream =>
          have hstage : (step cfg s (Event.data (DecOutcome.ok d))).1.stage =
              s.stage := by
            simp [step, handle_data_received, hst, hd, handle_stage_stream_fst]
          rw [hstage, hst]; decide

theorem invU_stageOk (cfg : Config) {s : Sys} (e : Event) (h : InvU s) :
    stageOk s.stage (step cfg s e).1.stage = true := by
  obtain ⟨h0, h1, h2, h3, h4⟩ := h
  cases e with
  | eof => rw [step, localClose_fst_stage]; exact stageOk_destroy _
  | connLost => rw [step, localClose_fst_stage]; exact stageOk_destroy _
  | remoteEof => rw [step, remoteTClose_none h1]; exact stageOk_refl _
  | remoteConnLost => rw [step, remoteTClose_none h1]; exact stageOk_refl _
  | remoteConnected =>
    rw [step, remote_connection_made_fst_stage]; exact stageOk_refl _
  | connectFailed =>
    have hstep : step cfg s Event.connectFailed = (s, []) := by
      simp [step, remote_connection_failed, h2]
    rw [hstep]; exact stageOk_refl _
  | remoteData d =>
    show stageOk s.stage s.stage = true
    exact stageOk_refl _
  | udpReply i src d => rw [step, udp_dgram_fst]; exact stageOk_refl _
  | udpErr i => rw [step, (remoteUClose_fst s i).1]; exact stageOk_refl _
  | udpConnLost i => rw [step, (remoteUClose_fst s i).1]; exact stageOk_refl _
  | data o =>
    cases o with
    | fail =>
      have hstage : (step cfg s (Event.data DecOutcome.fail)).1.stage =
          Stage.sDestroy := by
        simp [step, handle_data_received, localClose_fst_stage]
      rw [hstage]; exact stageOk_destroy _
    | ok d =>
      by_cases hd : d = []
      · subst hd
        have hstep : step cfg s (Event.data (DecOutcome.ok [])) = (s, []) := by
          simp [step, handle_data_received]
        rw [hstep]; exact stageOk_refl _
      · cases h3 with
        | inr hdes =>
          have hstage : (step cfg s (Event.data (DecOutcome.ok d))).1.stage =
              Stage.sDestroy := by
            simp [step, handle_data_received, hdes, hd, localClose_fst_stage]
          rw [hstage]; exact stageOk_destroy _
        | inl hini =>
          cases hph : cfg.parse_header d with
          | none =>
            have hstage : (step cfg s (Event.data (DecOutcome.ok d))).1.stage =
                Stage.sDestroy := by
              simp [step, handle_data_received, hini, hd, handle_stage_init, hph,
                localClose_fst_stage]
            rw [hstage]; exact stageOk_destroy _
          | some hdr =>
            cases hok : cfg.endpoint_ok s hdr with
            | true =>
              have hstage : (step cfg s (Event.data (DecOutcome.ok d))).1.stage =
                  s.stage := by
                simp [step, handle_data_received, hini, hd, handle_stage_init, hph, h0,
                  create_datagram_endpoint, hok]
              rw [hstage]; exact stageOk_refl _
            | false =>
              have hstage : (step cfg s (Event.data (DecOutcome.ok d))).1.stage =
                  Stage.sDestroy := by
                simp [step, handle_data_received, hini, hd, handle_stage_init, hph, h0,
                  create_datagram_endpoint, hok, localClose_fst_stage]
              rw [hstage]; exact stageOk_destroy _

/-- C6: the stage field never moves backward.  Over every reachable state of a
TCP or UDP Session and every next event, the stage either stays, advances
INIT→CONNECT or CONNECT→STREAM, moves laterally to ERROR, or drops to
DESTROY; once DESTROY is reached no event sets it to any other value
(`stageOk Stage.sDestroy b = true` only for `b = Stage.sDestroy`). -/
theorem stage_no_regression (cfg : Config) :
    (∀ (tr : List Event) (e : Event),
      stageOk (run cfg initTCP tr).1.stage
        (step cfg (run cfg initTCP tr).1 e).1.stage = true) ∧
    (∀ (tr : List Event) (e : Event),
      stageOk (run cfg initUDP tr).1.stage
        (step cfg (run cfg initUDP tr).1 e).1.stage = true) := by
  constructor
  · intro tr e
    have hinv := tinv_run cfg tr initTCP [] [] tinv_init
    exact tinv_stageOk cfg e hinv
  · intro tr e
    have hinv := invU_run cfg tr initUDP invU_init
    exact invU_stageOk cfg e hinv

theorem gaugeIncCount_localClose (s : Sys) : gaugeIncCount (localClose s).2 = 0 := by
  cases hr : s.remote <;>
    simp only [localClose, remoteTCloseFromLocal, hr] <;> split_ifs <;>
      simp [gaugeIncCount]

theorem upSendCount_localClose (s : Sys) : upSendCount (localClose s).2 = 0 := by
  cases hr : s.remote <;>
    simp only [localClose, remoteTCloseFromLocal, hr] <;> split_ifs <;>
      simp [upSendCount]

theorem gaugeSum_localClose_udp {s : Sys} (hp : s.protocol = Transport.udp)
    (hr : s.remote = none) :
    gaugeSum (localClose s).2 = if s.is_closing then 0 else -1 := by
  simp only [localClose, remoteTCloseFromLocal, hr, hp]
  split_ifs <;> simp_all [gaugeSum]

theorem gaugeSum_local_write (s : Sys) (d : Bytes) :
    gaugeSum (local_write s d) = 0 := by
  simp only [local_write]; split_ifs <;> simp [gaugeSum]

theorem gaugeIncCount_local_write (s : Sys) (d : Bytes) :
    gaugeIncCount (local_write s d) = 0 := by
  simp only [local_write]; split_ifs <;> simp [gaugeIncCount]

theorem upSendCount_local_write (s : Sys) (d : Bytes) :
    upSendCount (local_write s d) = 0 := by
  simp only [local_write]; split_ifs <;> simp [upSendCount]

theorem gaugeSum_udp_dgram (s : Sys) (i : Nat) (src : Addr × Nat) (d : Bytes) :
    gaugeSum (udp_datagram_received s i src d).2 = 0 := by
  cases hg : s.udp_remotes[i]? with
  | none => simp [udp_datagram_received, hg, gaugeSum]
  | some r =>
    simp only [udp_datagram_received, hg]
    split_ifs <;> simp [gaugeSum, gaugeSum_local_write]

theorem gaugeIncCount_udp_dgram (s : Sys) (i : Nat) (src : Addr × Nat) (d : Bytes) :
    gaugeIncCount (udp_datagram_received s i src d).2 = 0 := by
  cases hg : s.udp_remotes[i]? with
  | none => simp [udp_datagram_received, hg, gaugeIncCount]
  | some r =>
    simp only [udp_datagram_received, hg]
    split_ifs <;> simp [gaugeIncCount, gaugeIncCount_local_write]

theorem upSendCount_udp_dgram (s : Sys) (i : Nat) (src : Addr × Nat) (d : Bytes) :
    upSendCount (udp_datagram_received s i src d).2 = 0 := by
  cases hg : s.udp_remotes[i]? with
  | none => simp [udp_datagram_received, hg, upSendCount]
  | some r =>
    simp only [udp_datagram_received, hg]
    split_ifs <;> simp [upSendCount, upSendCount_local_write]

theorem gaugeSum_remoteUClose (s : Sys) (i : Nat) :
    gaugeSum (remoteUClose s i).2 = 0 := by
  cases hg : s.udp_remotes[i]? with
  | none => simp [remoteUClose, hg, gaugeSum]
  | some r =>
    simp only [remoteUClose, hg]
    split_ifs <;> simp [gaugeSum]

theorem gaugeIncCount_remoteUClose (s : Sys) (i : Nat) :
    gaugeIncCount (remoteUClose s i).2 = 0 := by
  cases hg : s.udp_remotes[i]? with
  | none => simp [remoteUClose, hg, gaugeIncCount]
  | some r =>
    simp only [remoteUClose, hg]
    split_ifs <;> simp [gaugeIncCount]

theorem upSendCount_remoteUClose (s : Sys) (i : Nat) :
    upSendCount (remoteUClose s i).2 = 0 := by
  cases hg : s.udp_remotes[i]? with
  | none => simp [remoteUClose, hg, upSendCount]
  | some r =>
    simp only [remoteUClose, hg]
    split_ifs <;> simp [upSendCount]

theorem remoteUClose_fst_closing (s : Sys) (i : Nat) :
    (remoteUClose s i).1.is_closing = s.is_closing :=
  (remoteUClose_fst s i).2.1

theorem invU_step_gauge (cfg : Config) {s : Sys} (e : Event) (h : InvU s) :
    gaugeSum (step cfg s e).2 =
      (if (step cfg s e).1.is_closing then (-1 : Int) else 0) -
        (if s.is_closing then (-1 : Int) else 0) ∧
    gaugeIncCount (step cfg s e).2 = 0 := by
  obtain ⟨h0, h1, h2, h3, h4⟩ := h
  cases e with
  | eof =>
    rw [step, gaugeSum_localClose_udp h0 h1, localClose_fst_closing,
      gaugeIncCount_localClose]
    cases hc : s.is_closing <;> simp
  | connLost =>
    rw [step, gaugeSum_localClose_udp h0 h1, localClose_fst_closing,
      gaugeIncCount_localClose]
    cases hc : s.is_closing <;> simp
  | remoteEof =>
    rw [step, remoteTClose_none h1]
    simp [gaugeSum, gaugeIncCount]
  | remoteConnLost =>
    rw [step, remoteTClose_none h1]
    simp [gaugeSum, gaugeIncCount]
  | remoteConnected =>
    have hstep : step cfg s Event.remoteConnected = (s, []) := by
      simp [step, remote_connection_made, h2]
    rw [hstep]
    simp [gaugeSum, gaugeIncCount]
  | connectFailed =>
    have hstep : step cfg s Event.connectFailed = (s, []) := by
      simp [step, remote_connection_failed, h2]
    rw [hstep]
    simp [gaugeSum, gaugeIncCount]
  | remoteData d =>
    rw [step]
    simp [remote_data_received, gaugeSum_local_write, gaugeIncCount_local_write]
  | udpReply i src d =>
    rw [step, gaugeSum_udp_dgram, gaugeIncCount_udp_dgram, udp_dgram_fst]
    simp
  | udpErr i =>
    rw [step, gaugeSum_remoteUClose, gaugeIncCount_remoteUClose,
      remoteUClose_fst_closing]
    simp
  | udpConnLost i =>
    rw [step, gaugeSum_remoteUClose, gaugeIncCount_remoteUClose,
      remoteUClose_fst_closing]
    simp
  | data o =>
    cases o with
    | fail =>
      have hstep : step cfg s (Event.data DecOutcome.fail) = localClose s := by
        simp [step, handle_data_received]
      rw [hstep, gaugeSum_localClose_udp h0 h1, localClose_fst_closing,
        gaugeIncCount_localClose]
      cases hc : s.is_closing <;> simp
    | ok d =>
      by_cases hd : d = []
      · subst hd
        have hstep : step cfg s (Event.data (DecOutcome.ok [])) = (s, []) := by
          simp [step, handle_data_received]
        rw [hstep]
        simp [gaugeSum, gaugeIncCount]
      · cases h3 with
        | inr hdes =>
          have hstep : step cfg s (Event.data (DecOutcome.ok d)) = localClose s := by
            simp [step, handle_data_received, hdes, hd]
          rw [hstep, gaugeSum_localClose_udp h0 h1, localClose_fst_closing,
            gaugeIncCount_localClose]
          cases hc : s.is_closing <;> simp
        | inl hini =>
          cases hph : cfg.parse_header d with
          | none =>
            have hstep : step cfg s (Event.data (DecOutcome.ok d)) = localClose s := by
              simp [step, handle_data_received, hini, hd, handle_stage_init, hph]
            rw [hstep, gaugeSum_localClose_udp h0 h1, localClose_fst_closing,
              gaugeIncCount_localClose]
            cases hc : s.is_closing <;> simp
          | some hdr =>
            have hstep : step cfg s (Event.data (DecOutcome.ok d)) =
                create_datagram_endpoint cfg s hdr (d.drop hdr.header_length) := by
              simp [step, handle_data_received, hini, hd, handle_stage_init, hph, h0]
            rw [hstep]
            have hcf : s.is_closing = false := by
              cases hc : s.is_closing with
              | false => rfl
              | true =>
                have hdes := h4 hc
                rw [hini] at hdes
                exact absurd hdes (by decide)
            cases hok : cfg.endpoint_ok s hdr with
            | true =>
              rw [create_datagram_endpoint_ok _ hok]
              simp [gaugeSum, gaugeIncCount]
            | false =>
              rw [create_datagram_endpoint_fail _ hok]
              have h0m : ({ s with stage := Stage.sError } : Sys).protocol =
                  Transport.udp := h0
              have h1m : ({ s with stage := Stage.sError } : Sys).remote = none := h1
              constructor
              · show gaugeSum (localClose { s with stage := Stage.sError }).2 = _
                rw [gaugeSum_localClose_udp h0m h1m, localClose_fst_closing]
                simp [hcf]
              · show gaugeIncCount (localClose { s with stage := Stage.sError }).2 = 0
                exact gaugeIncCount_localClose _

theorem invU_run_gauge (cfg : Config) (tr : List Event) :
    ∀ s : Sys, InvU s →
      gaugeSum (run cfg s tr).2 =
        (if (run cfg s tr).1.is_closing then (-1 : Int) else 0) -
          (if s.is_closing then (-1 : Int) else 0) ∧
      gaugeIncCount (run cfg s tr).2 = 0 := by
  induction tr with
  | nil => intro s h; simp [run, gaugeSum, gaugeIncCount]
  | cons e es ih =>
    intro s h
    have hstep := invU_step_gauge cfg e h
    have hrest := ih (step cfg s e).1 (invU_step cfg e h)
    rw [run]
    constructor
    · rw [gaugeSum_append, hstep.1, hrest.1]
      ring
    · rw [gaugeIncCount_append, hstep.2, hrest.2]

/-- C10: over every UDP Session trace, the active-connection gauge only ever
moves by the single decrement of the first `close` — no UDP code path
increments it (the net gauge movement is `-1` exactly when the Session has
closed, `0` otherwise, and the trace contains no positive gauge delta), so
each closed UDP Session leaves the gauge one lower than before it existed;
the increment/decrement balance holds only for TCP Sessions. -/
theorem udp_gauge_imbalance (cfg : Config) (tr : List Event) :
    gaugeSum (run cfg initUDP tr).2 =
      (if (run cfg initUDP tr).1.is_closing then (-1 : Int) else 0) ∧
    gaugeIncCount (run cfg initUDP tr).2 = 0 := by
  have hmain := invU_run_gauge cfg tr initUDP invU_init
  constructor
  · rw [hmain.1]
    simp [initUDP, initTCP]
  · exact hmain.2

theorem invU_step_upsend (cfg : Config) {s : Sys} (e : Event) (h : InvU s) :
    upSendCount (step cfg s e).2 = (if udpQualifies cfg s e then 1 else 0) := by
  obtain ⟨h0, h1, h2, h3, h4⟩ := h
  cases e with
  | eof => rw [step, upSendCount_localClose]; simp [udpQualifies]
  | connLost => rw [step, upSendCount_localClose]; simp [udpQualifies]
  | remoteEof => rw [step, remoteTClose_none h1]; simp [udpQualifies, upSendCount]
  | remoteConnLost => rw [step, remoteTClose_none h1]; simp [udpQualifies, upSendCount]
  | remoteConnected =>
    have hstep : step cfg s Event.remoteConnected = (s, []) := by
      simp [step, remote_connection_made, h2]
    rw [hstep]; simp [udpQualifies, upSendCount]
  | connectFailed =>
    have hstep : step cfg s Event.connectFailed = (s, []) := by
      simp [step, remote_connection_failed, h2]
    rw [hstep]; simp [udpQualifies, upSendCount]
  | remoteData d =>
    rw [step]
    simp [remote_data_received, upSendCount_local_write, udpQualifies]
  | udpReply i src d => rw [step, upSendCount_udp_dgram]; simp [udpQualifies]
  | udpErr i => rw [step, upSendCount_remoteUClose]; simp [udpQualifies]
  | udpConnLost i => rw [step, upSendCount_remoteUClose]; simp [udpQualifies]
  | data o =>
    cases o with
    | fail =>
      have hstep : step cfg s (Event.data DecOutcome.fail) = localClose s := by
        simp [step, handle_data_received]
      rw [hstep, upSendCount_localClose]; simp [udpQualifies]
    | ok d =>
      by_cases hd : d = []
      · subst hd
        have hstep : step cfg s (Event.data (DecOutcome.ok [])) = (s, []) := by
          simp [step, handle_data_received]
        rw [hstep]; simp [udpQualifies, upSendCount]
      · cases h3 with
        | inr hdes =>
          have hstep : step cfg s (Event.data (DecOutcome.ok d)) = localClose s := by
            simp [step, handle_data_received, hdes, hd]
          rw [hstep, upSendCount_localClose]
          simp [udpQualifies, hdes]
        | inl hini =>
          cases hph : cfg.parse_header d with
          | none =>
            have hstep : step cfg s (Event.data (DecOutcome.ok d)) = localClose s := by
              simp [step, handle_data_received, hini, hd, handle_stage_init, hph]
            rw [hstep, upSendCount_localClose]
            simp [udpQualifies, hini, hph, hd]
          | some hdr =>
            have hstep : step cfg s (Event.data (DecOutcome.ok d)) =
                create_datagram_endpoint cfg s hdr (d.drop hdr.header_length) := by
              simp [step, handle_data_received, hini, hd, handle_stage_init, hph, h0]
            rw [hstep]
            cases hok : cfg.endpoint_ok s hdr with
            | true =>
              rw [create_datagram_endpoint_ok _ hok]
              simp [upSendCount, udpQualifies, hini, hph, hd, hok]
            | false =>
              rw [create_datagram_endpoint_fail _ hok]
              show upSendCount (Output.stageSet Stage.sError ::
                (localClose { s with stage := Stage.sError }).2) = _
              rw [show upSendCount (Output.stageSet Stage.sError ::
                  (localClose { s with stage := Stage.sError }).2) =
                upSendCount (localClose { s with stage := Stage.sError }).2 from rfl]
              rw [upSendCount_localClose]
              simp [udpQualifies, hini, hph, hd, hok]

theorem invU_run_upsend (cfg : Config) (tr : List Event) :
    ∀ s : Sys, InvU s →
      upSendCount (run cfg s tr).2 = udpQualCount cfg s tr := by
  induction tr with
  | nil => intro s h; simp [run, udpQualCount, upSendCount]
  | cons e es ih =>
    intro s h
    rw [run, udpQualCount]
    dsimp only
    rw [upSendCount_append, invU_step_upsend cfg e h,
      ih (step cfg s e).1 (invU_step cfg e h)]

/-- C8 (amended): on UDP, each inbound client datagram that decrypts to
non-empty data, arrives while the Session is still in INIT (i.e. not closed),
carries a parseable header, and whose datagram endpoint toward the
destination is successfully created produces exactly one outbound upstream
datagram (the count of upstream sends equals the count of such qualifying
datagrams, over every pattern of endpoint-creation failures — a failed
creation runs stage → ERROR and close and sends nothing); and each upstream
reply datagram from the bound peer of a live endpoint produces exactly one
encrypted datagram sent back to the client peer. -/
theorem udp_datagram_one_to_one :
    (∀ (cfg : Config) (tr : List Event),
      upSendCount (run cfg initUDP tr).2 = udpQualCount cfg initUDP tr) ∧
    (∀ (cfg : Config) (s : Sys) (i : Nat) (r : RemoteU) (src : Addr × Nat) (d : Bytes),
      s.udp_remotes[i]? = some r → r.is_closing = false → r.peer = src →
      s.protocol = Transport.udp →
      clientSends (step cfg s (Event.udpReply i src d)).2 =
        [udpReplyPlain src.1 src.2 d]) := by
  constructor
  · intro cfg tr
    exact invU_run_upsend cfg tr initUDP invU_init
  · intro cfg s i r src d hg hc hpeer hp
    rw [step]
    simp [udp_datagram_received, hg, hc, hpeer, local_write, hp, clientSends]

/-- Witness for C8: one qualifying datagram produces one upstream send; under
a configuration whose endpoint creation always fails the same datagram is not
qualifying and produces no send; and a reply from the bound peer produces
exactly one client datagram. -/
theorem udp_datagram_one_to_one_witness :
    upSendCount (run cfg0 initUDP [Event.data (DecOutcome.ok [1, 1, 1, 7, 7])]).2 =
      udpQualCount cfg0 initUDP [Event.data (DecOutcome.ok [1, 1, 1, 7, 7])] ∧
    upSendCount (run cfgFail initUDP [Event.data (DecOutcome.ok [1, 1, 1, 7, 7])]).2 =
      udpQualCount cfgFail initUDP [Event.data (DecOutcome.ok [1, 1, 1, 7, 7])] ∧
    clientSends (step cfg0 cexUDPSys
        (Event.udpReply 0 (Addr.v4 8 8 8 8, 53) [5])).2 =
      [udpReplyPlain (Addr.v4 8 8 8 8) 53 [5]] :=
  ⟨udp_datagram_one_to_one.1 cfg0 [Event.data (DecOutcome.ok [1, 1, 1, 7, 7])],
   udp_datagram_one_to_one.1 cfgFail [Event.data (DecOutcome.ok [1, 1, 1, 7, 7])],
   udp_datagram_one_to_one.2 cfg0 cexUDPSys 0
     { peer := (Addr.v4 8 8 8 8, 53), is_closing := false,
       transport_closing := false, local_ref := true }
     (Addr.v4 8 8 8 8, 53) [5] (by decide) (by decide) (by decide) (by decide)⟩

/-- Counterexample for C8 as frozen: after a first datagram whose header does
not parse closes the UDP Session, a second datagram that decrypts to
non-empty data (with a parseable header and a post-header payload) produces
no upstream datagram at all — the 1:1 claim fails without the
still-in-INIT qualification. -/
theorem udp_one_to_one_cex :
    ([1, 1, 1, 7, 7] : Bytes) ≠ [] ∧
    (cfg0.parse_header [1, 1, 1, 7, 7]).isSome = true ∧
    upSendCount (run cfg0 initUDP [Event.data (DecOutcome.ok [9]),
      Event.data (DecOutcome.ok [1, 1, 1, 7, 7])]).2 = 0 := by
  decide

theorem sys_set_stage_destroy_self {s : Sys} (h : s.stage = Stage.sDestroy) :
    ({ s with stage := Stage.sDestroy } : Sys) = s := by
  cases s
  simp_all

theorem localClose_latched {s : Sys} (h1 : s.is_closing = true)
    (h2 : s.stage = Stage.sDestroy) :
    localClose s = (s, [Output.stageSet Stage.sDestroy]) := by
  cases s
  simp_all [localClose]

theorem remoteTClose_latched {s : Sys} {r : RemoteT} (hr : s.remote = some r)
    (hc : r.is_closing = true) : remoteTClose s = (s, []) := by
  simp [remoteTClose, hr, hc]

theorem runCloses_fixed {s : Sys} (hp : s.protocol = Transport.tcp)
    (h1 : s.is_closing = true) (h2 : s.stage = Stage.sDestroy)
    (h3 : ∀ r, s.remote = some r → r.is_closing = true) :
    ∀ cs : List CloseHalf, (runCloses s cs).1 = s ∧
      onlyStageSets (runCloses s cs).2 = true := by
  intro cs
  induction cs with
  | nil => simp [runCloses, onlyStageSets]
  | cons c cs ih =>
    have hch : (closeHalf s c).1 = s ∧ onlyStageSets (closeHalf s c).2 = true := by
      cases c with
      | chLocal => rw [closeHalf, localClose_latched h1 h2]; simp [onlyStageSets]
      | chRemote =>
        rw [closeHalf]
        simp only [hp, if_pos rfl]
        cases hr : s.remote with
        | none => rw [remoteTClose_none hr]; simp [onlyStageSets]
        | some r => rw [remoteTClose_latched hr (h3 r hr)]; simp [onlyStageSets]
    rw [runCloses]
    dsimp only
    rw [hch.1]
    constructor
    · exact (ih).1
    · rw [onlyStageSets_append, hch.2, (ih).2]
      rfl

theorem tcp_first_close (s : Sys) (r : RemoteT) (c : CloseHalf)
    (hp : s.protocol = Transport.tcp) (hlc : s.is_closing = false)
    (hr : s.remote = some r) (hrc : r.is_closing = false)
    (hcip : s.has_cipher = true) :
    gaugeDecCount (closeHalf s c).2 = 2 ∧ incrTcpCount (closeHalf s c).2 = 1 ∧
    (closeHalf s c).1.is_closing = true ∧
    (closeHalf s c).1.stage = Stage.sDestroy ∧
    (closeHalf s c).1.protocol = Transport.tcp ∧
    ∀ r2, (closeHalf s c).1.remote = some r2 → r2.is_closing = true := by
  cases c with
  | chLocal =>
    simp only [closeHalf, localClose, remoteTCloseFromLocal, hp, hlc, hr, hrc, hcip]
    refine ⟨by simp [gaugeDecCount, hcip], by simp [incrTcpCount, hcip], by simp,
      by simp, by simp [hp], ?_⟩
    intro r2 hr2
    simp at hr2
    rw [← hr2]
  | chRemote =>
    simp only [closeHalf, hp, if_pos rfl, remoteTClose, hr, hrc, localClose,
      remoteTCloseFromLocal, hlc]
    refine ⟨by simp [gaugeDecCount, hcip], by simp [incrTcpCount, hcip], by simp,
      by simp, by simp [hp], ?_⟩
    intro r2 hr2
    simp at hr2
    rw [← hr2]


theorem localClose_udp_outputs {s : Sys} (hp : s.protocol = Transport.udp)
    (hr : s.remote = none) (hlc : s.is_closing = false) :
    (localClose s).2 = [Output.stageSet Stage.sDestroy, Output.gauge (-1)] := by
  simp [localClose, remoteTCloseFromLocal, hp, hlc, hr]

/-- C3 (amended): for TCP Sessions the frozen claim holds — any sequence of
close calls, in any order from either half, decrements the
active-connection gauge exactly once per half (two decrements in total,
one in `LocalHandler.close` and one in `RemoteTCP.close`), calls
`incr_user_tcp_num(-1)` exactly once, and every call after the first is a
no-op on metrics and transports.  For UDP Sessions only the `LocalHandler`
half decrements the gauge: `RemoteUDP.close` never touches it and does not
latch the handler, so a local close arriving after a remote close still acts. -/
theorem close_metrics_per_half :
    (∀ (s : Sys) (r : RemoteT) (c : CloseHalf) (cs : List CloseHalf),
      s.protocol = Transport.tcp → s.is_closing = false → s.remote = some r →
      r.is_closing = false → s.has_cipher = true →
      gaugeDecCount (closeHalf s c).2 = 2 ∧
      incrTcpCount (closeHalf s c).2 = 1 ∧
      (runCloses (closeHalf s c).1 cs).1 = (closeHalf s c).1 ∧
      onlyStageSets (runCloses (closeHalf s c).1 cs).2 = true) ∧
    (∀ (s : Sys) (r : RemoteU),
      s.protocol = Transport.udp → s.is_closing = false → s.remote = none →
      s.udp_remotes = [r] → r.is_closing = false →
      gaugeDecCount (localClose s).2 = 1 ∧ incrTcpCount (localClose s).2 = 0 ∧
      gaugeDecCount (remoteUClose s 0).2 = 0 ∧
      (remoteUClose s 0).1.is_closing = false ∧
      gaugeDecCount (closeHalf (remoteUClose s 0).1 CloseHalf.chLocal).2 = 1) := by
  constructor
  · intro s r c cs hp hlc hr hrc hcip
    obtain ⟨g1, g2, g3, g4, g5, g6⟩ := tcp_first_close s r c hp hlc hr hrc hcip
    have hfix := runCloses_fixed g5 g3 g4 g6 cs
    exact ⟨g1, g2, hfix.1, hfix.2⟩
  · intro s r hp hlc hr hq hrc
    have hg0 : s.udp_remotes[0]? = some r := by rw [hq]; rfl
    have hout : (remoteUClose s 0).2 = [Output.udpTransportClose 0] := by
      simp [remoteUClose, hg0, hrc]
    obtain ⟨f1, f2, f3, f4, f5, f6⟩ := remoteUClose_fst s 0
    refine ⟨?_, ?_, ?_, ?_, ?_⟩
    · rw [localClose_udp_outputs hp hr hlc]; rfl
    · rw [localClose_udp_outputs hp hr hlc]; rfl
    · rw [hout]; rfl
    · rw [f2]; exact hlc
    · rw [closeHalf]
      rw [localClose_udp_outputs (by rw [f4]; exact hp) (by rw [f5]; exact hr)
        (by rw [f2]; exact hlc)]
      rfl

/-- Witness for C3 (amended): a live TCP pair closed local-first then
remote (two gauge decrements, one TCP-count decrement, second call a no-op),
and a live UDP pair where the local close decrements once and the remote
close decrements zero times and leaves the handler open. -/
theorem close_metrics_per_half_witness :
    (gaugeDecCount (closeHalf cexTCPSys CloseHalf.chLocal).2 = 2 ∧
     incrTcpCount (closeHalf cexTCPSys CloseHalf.chLocal).2 = 1 ∧
     (runCloses (closeHalf cexTCPSys CloseHalf.chLocal).1 [CloseHalf.chRemote]).1 =
       (closeHalf cexTCPSys CloseHalf.chLocal).1 ∧
     onlyStageSets (runCloses (closeHalf cexTCPSys CloseHalf.chLocal).1
       [CloseHalf.chRemote]).2 = true) ∧
    (gaugeDecCount (localClose cexUDPSys).2 = 1 ∧
     incrTcpCount (localClose cexUDPSys).2 = 0 ∧
     gaugeDecCount (remoteUClose cexUDPSys 0).2 = 0 ∧
     (remoteUClose cexUDPSys 0).1.is_closing = false ∧
     gaugeDecCount (closeHalf (remoteUClose cexUDPSys 0).1 CloseHalf.chLocal).2 = 1) :=
  ⟨close_metrics_per_half.1 cexTCPSys cexRemoteT CloseHalf.chLocal
     [CloseHalf.chRemote] (by decide) (by decide) (by decide) (by decide) (by decide),
   close_metrics_per_half.2 cexUDPSys cexRemoteU
     (by decide) (by decide) (by decide) (by decide) (by decide)⟩

/-- Counterexample for C3 as frozen: on a live UDP Session/Remote pair the
remote half performs zero gauge decrements when closed (the claim demands
exactly one per half), and the local close arriving after it is not a
metrics no-op — it still decrements the gauge. -/
theorem close_per_half_gauge_cex :
    gaugeDecCount (closeHalf cexUDPSys CloseHalf.chRemote).2 = 0 ∧
    onlyStageSets (runCloses (closeHalf cexUDPSys CloseHalf.chRemote).1
      [CloseHalf.chLocal]).2 = false ∧
    gaugeDecCount (runCloses (closeHalf cexUDPSys CloseHalf.chRemote).1
      [CloseHalf.chLocal]).2 = 1 := by
  decide

theorem remoteTCloseFromLocal_closing (s : Sys) (r2 : RemoteT)
    (h : (remoteTCloseFromLocal s).1.remote = some r2) : r2.is_closing = true := by
  cases hrm : s.remote with
  | none =>
    rw [show (remoteTCloseFromLocal s).1 = s by simp [remoteTCloseFromLocal, hrm]]
      at h
    rw [hrm] at h
    exact absurd h (by simp)
  | some r0 =>
    by_cases hc : r0.is_closing = true
    · rw [show (remoteTCloseFromLocal s).1 = s by
        simp [remoteTCloseFromLocal, hrm, hc]] at h
      rw [hrm] at h
      simp only [Option.some.injEq] at h
      rw [← h]
      exact hc
    · rw [show (remoteTCloseFromLocal s).1 =
        { s with stage := Stage.sDestroy,
                 remote := some { r0 with is_closing := true,
                                          transport_closing := true } } by
        simp [remoteTCloseFromLocal, hrm, hc]] at h
      simp only [Option.some.injEq] at h
      rw [← h]

/-- C4 (amended): closing the `LocalHandler` half closes the TCP Remote when
present (any remote still installed after `close` carries a set latch), and
closing a live `RemoteTCP` closes the Session (latch set, stage DESTROY);
`RemoteUDP.close`, however, does not propagate — it leaves the handler
latch, stage and `_remote` untouched, closing only its own transport and
dropping its back-reference. -/
theorem close_propagation :
    (∀ s : Sys, s.is_closing = false →
      ∀ r, (localClose s).1.remote = some r → r.is_closing = true) ∧
    (∀ (s : Sys) (r : RemoteT), s.remote = some r → r.is_closing = false →
      (remoteTClose s).1.is_closing = true ∧
      (remoteTClose s).1.stage = Stage.sDestroy) ∧
    (∀ (s : Sys) (i : Nat),
      (remoteUClose s i).1.is_closing = s.is_closing ∧
      (remoteUClose s i).1.stage = s.stage ∧
      (remoteUClose s i).1.remote = s.remote) := by
  refine ⟨?_, ?_, ?_⟩
  · intro s hlc r hr
    by_cases hp : s.protocol = Transport.tcp
    · rw [show (localClose s).1 = (remoteTCloseFromLocal
          { s with stage := Stage.sDestroy, is_closing := true,
                   local_transport_closing := true }).1 by
        simp [localClose, hlc, hp]] at hr
      exact remoteTCloseFromLocal_closing _ r hr
    · rw [show (localClose s).1 = (remoteTCloseFromLocal
          { s with stage := Stage.sDestroy, is_closing := true }).1 by
        simp [localClose, hlc, hp]] at hr
      exact remoteTCloseFromLocal_closing _ r hr
  · intro s r hr hrc
    have hred : (remoteTClose s).1 = (localClose
        { s with remote := some { r with is_closing := true,
                                         transport_closing := true } }).1 := by
      simp [remoteTClose, hr, hrc]
    rw [hred, localClose_fst_closing, localClose_fst_stage]
    exact ⟨rfl, rfl⟩
  · intro s i
    obtain ⟨f1, f2, _, _, f5, _⟩ := remoteUClose_fst s i
    exact ⟨f2, f1, f5⟩

/-- Witness for C4 (amended): on a live TCP pair, a local close latches the
remote and a remote close latches the Session; on a live UDP pair, closing
the `RemoteUDP` endpoint leaves the handler exactly as it was. -/
theorem close_propagation_witness :
    (∀ r, (localClose cexTCPSys).1.remote = some r → r.is_closing = true) ∧
    ((remoteTClose cexTCPSys).1.is_closing = true ∧
     (remoteTClose cexTCPSys).1.stage = Stage.sDestroy) ∧
    ((remoteUClose cexUDPSys 0).1.is_closing = cexUDPSys.is_closing ∧
     (remoteUClose cexUDPSys 0).1.stage = cexUDPSys.stage ∧
     (remoteUClose cexUDPSys 0).1.remote = cexUDPSys.remote) :=
  ⟨close_propagation.1 cexTCPSys (by decide),
   close_propagation.2.1 cexTCPSys cexRemoteT (by decide) (by decide),
   close_propagation.2.2 cexUDPSys 0⟩

/-- Counterexample for C4 as frozen: closing the `RemoteUDP` half of a live
UDP Session does not close the Session — afterwards the handler latch is
still unset and the stage is still INIT, while the endpoint itself is
latched with its transport closed and its back-reference dropped. -/
theorem remote_udp_close_no_propagation_cex :
    (closeHalf cexUDPSys CloseHalf.chRemote).1.is_closing = false ∧
    (closeHalf cexUDPSys CloseHalf.chRemote).1.stage = Stage.sInit ∧
    (closeHalf cexUDPSys CloseHalf.chRemote).1.udp_remotes =
      [{ peer := (Addr.v4 8 8 8 8, 53), is_closing := true,
         transport_closing := true, local_ref := false }] := by
  decide

theorem localClose_no_error_stage (s : Sys) :
    Output.stageSet Stage.sError ∉ (localClose s).2 := by
  cases hr : s.remote <;>
    simp only [localClose, remoteTCloseFromLocal, hr] <;> split_ifs <;> simp

theorem localClose_no_connect (s : Sys) :
    Output.connectInitiated ∉ (localClose s).2 := by
  cases hr : s.remote <;>
    simp only [localClose, remoteTCloseFromLocal, hr] <;> split_ifs <;> simp

/-- C7 (amended): in stage INIT, when `parse_header` returns any null field
on the decrypted data the Session closes immediately — `close()` sets the
stage directly to DESTROY and latches — without ever entering the ERROR
stage (no `_stage = STAGE_ERROR` assignment is performed) and without
attempting an upstream connect (no `loop.create_connection` call and no
upstream write). -/
theorem parse_fail_closes (cfg : Config) (s : Sys) (d : Bytes)
    (h0 : s.stage = Stage.sInit) (h1 : cfg.parse_header d = none) (h2 : d ≠ []) :
    (step cfg s (Event.data (DecOutcome.ok d))).1.stage = Stage.sDestroy ∧
    (step cfg s (Event.data (DecOutcome.ok d))).1.is_closing = true ∧
    Output.stageSet Stage.sError ∉ (step cfg s (Event.data (DecOutcome.ok d))).2 ∧
    Output.connectInitiated ∉ (step cfg s (Event.data (DecOutcome.ok d))).2 ∧
    upstreamWrites (step cfg s (Event.data (DecOutcome.ok d))).2 = [] := by
  have hstep : step cfg s (Event.data (DecOutcome.ok d)) = localClose s := by
    simp [step, handle_data_received, h0, h2, handle_stage_init, h1]
  rw [hstep]
  exact ⟨localClose_fst_stage s, localClose_fst_closing s, localClose_no_error_stage s,
    localClose_no_connect s, upstreamWrites_localClose s⟩

/-- Witness for C7 (amended): a fresh TCP Session receiving a two-byte chunk
whose header does not parse. -/
theorem parse_fail_closes_witness :
    (step cfg0 initTCP (Event.data (DecOutcome.ok [9, 9]))).1.stage =
      Stage.sDestroy ∧
    (step cfg0 initTCP (Event.data (DecOutcome.ok [9, 9]))).1.is_closing = true ∧
    Output.stageSet Stage.sError ∉
      (step cfg0 initTCP (Event.data (DecOutcome.ok [9, 9]))).2 ∧
    Output.connectInitiated ∉
      (step cfg0 initTCP (Event.data (DecOutcome.ok [9, 9]))).2 ∧
    upstreamWrites (step cfg0 initTCP (Event.data (DecOutcome.ok [9, 9]))).2 = [] :=
  parse_fail_closes cfg0 initTCP [9, 9] (by decide) (by decide) (by decide)

/-- Counterexample for C7 as frozen: on a concrete parse failure the Session
never transitions to the ERROR stage — the close path emits no
`_stage = STAGE_ERROR` assignment and the resulting stage is DESTROY, not
ERROR. -/
theorem parse_fail_no_error_stage_cex :
    (step cfg0 initTCP (Event.data (DecOutcome.ok [9]))).1.stage = Stage.sDestroy ∧
    ¬(step cfg0 initTCP (Event.data (DecOutcome.ok [9]))).1.stage = Stage.sError ∧
    Output.stageSet Stage.sError ∉
      (step cfg0 initTCP (Event.data (DecOutcome.ok [9]))).2 := by
  decide

/-- C9: a chunk whose decryption yields empty bytes leaves
`handle_data_received` with no effect at all — the Session state (stage,
pending buffer, remote, closing latch, everything) is unchanged and no
output is produced. -/
theorem empty_decrypt_noop (cfg : Config) (s : Sys) :
    step cfg s (Event.data (DecOutcome.ok [])) = (s, []) := by
  simp [step, handle_data_received]

/-- C5: the pre-encryption UDP reply packet is
`ATYP || packed_addr || be16(port) || payload`, but the ATYP byte emitted by
`RemoteUDP.datagram_received` (`core.py` line 331, `b"\x01" + addr + port +
data`) is the constant `0x01` for every address family: the IPv4 reply
matches the claim, while an IPv6 reply also starts with `0x01` instead of
the `0x04` the claim requires. -/
theorem udp_reply_atyp_always_one :
    (step cfg0 cexUDPSys (Event.udpReply 0 (Addr.v4 8 8 8 8, 53) [170])).2 =
      [Output.clientSendPlain (1 :: ([8, 8, 8, 8] ++ [0, 53] ++ [170]))] ∧
    (step cfg0 cexUDPSys6 (Event.udpReply 0
        (Addr.v6 [32, 1, 13, 184, 0, 0, 0, 0, 0, 0, 0, 0, 0, 0, 0, 1], 53) [170])).2 =
      [Output.clientSendPlain
        (1 :: ([32, 1, 13, 184, 0, 0, 0, 0, 0, 0, 0, 0, 0, 0, 0, 1] ++
          [0, 53] ++ [170]))] ∧
    udpReplyPlain (Addr.v6 [32, 1, 13, 184, 0, 0, 0, 0, 0, 0, 0, 0, 0, 0, 0, 1]) 53
        [170] ≠
      4 :: ([32, 1, 13, 184, 0, 0, 0, 0, 0, 0, 0, 0, 0, 0, 0, 1] ++
        [0, 53] ++ [170]) := by
  decide
